import Mathlib

/-!
# go-crud-docker: the in-memory project store of `main.go`

A shallow embedding of the handlers of `main.go`.  The package-level variable
`projects []Project` becomes an explicit `List Project` that every handler
receives and returns.  What the gin framework supplies is taken as an input of
the handler:

* the result of `strconv.Atoi(c.Param(..))` is an `Option Int` (`none` when
  `Atoi` reports an error);
* the result of `c.ShouldBindJSON(&v)` is an `Except String v` (the error
  message, or the bound value).

Go's `int` is modelled by `Int`: the only arithmetic is `len(projects) + 1` and
`index + 1`, far from the 64-bit bound.  A Go index or slice expression that
would panic yields `none`, so every handler returns an `Option`.
-/

namespace GoCrud

/-! ## Data model (`main.go`, lines 12-25) -/

/-- Task structure represents a task within a project. -/
structure Task where
  ID : Int
  Title : String
  Status : String
deriving DecidableEq, Repr

/-- Project structure represents a project with a list of tasks. -/
structure Project where
  ID : Int
  Title : String
  Tasks : List Task
deriving DecidableEq, Repr

/-- The Go zero value `Project{}`. -/
def Project.zero : Project := ⟨0, "", []⟩

/-! ## Go slice primitives -/

/-- Go `xs[i]` as an rvalue; `none` is the index-out-of-range panic. -/
def goIndex {α : Type} (xs : List α) (i : Int) : Option α :=
  if 0 ≤ i ∧ i < (xs.length : Int) then xs.get? i.toNat else none

/-- Go `xs[i] = v`; `none` is the index-out-of-range panic. -/
def goAssign {α : Type} (xs : List α) (i : Int) (v : α) : Option (List α) :=
  if 0 ≤ i ∧ i < (xs.length : Int) then some (xs.set i.toNat v) else none

/-- Go `xs[:i]`; `none` is the slice-bounds panic. -/
def goSliceTo {α : Type} (xs : List α) (i : Int) : Option (List α) :=
  if 0 ≤ i ∧ i ≤ (xs.length : Int) then some (xs.take i.toNat) else none

/-- Go `xs[i:]`; `none` is the slice-bounds panic. -/
def goSliceFrom {α : Type} (xs : List α) (i : Int) : Option (List α) :=
  if 0 ≤ i ∧ i ≤ (xs.length : Int) then some (xs.drop i.toNat) else none

/-! ## HTTP responses -/

/-- The second argument of `c.JSON`. -/
inductive Payload where
  | projects (ps : List Project)
  | project (p : Project)
  | task (t : Task)
  | error (msg : String)
  | null
deriving DecidableEq, Repr

/-- A call `c.JSON(status, body)`. -/
structure Response where
  status : Nat
  body : Payload
deriving DecidableEq, Repr

def StatusOK : Nat := 200
def StatusCreated : Nat := 201
def StatusNoContent : Nat := 204
def StatusBadRequest : Nat := 400
def StatusNotFound : Nat := 404

/-- The response `c.JSON(http.StatusNotFound, gin.H{"error": "Project not found"})`. -/
def projectNotFound : Response := ⟨StatusNotFound, Payload.error "Project not found"⟩

/-- The response `c.JSON(http.StatusNotFound, gin.H{"error": "Task not found"})`. -/
def taskNotFound : Response := ⟨StatusNotFound, Payload.error "Task not found"⟩

/-- The response `c.JSON(http.StatusBadRequest, gin.H{"error": err.Error()})`. -/
def badRequest (err : String) : Response := ⟨StatusBadRequest, Payload.error err⟩

/-! ## Helpers (`main.go`, lines 175-227) -/

/-- Get project ID from the URL parameters: 0 when `Atoi` fails. -/
def getIDParam (param : Option Int) : Int :=
  match param with
  | none => 0
  | some id => id

/-- Get the task ID from the URL parameters: 0 when `Atoi` fails. -/
def getTaskIDParam (param : Option Int) : Int :=
  match param with
  | none => 0
  | some taskID => taskID

/-- To find a project by ID: the first match, or `Project{}`. -/
def findProjectByID (projects : List Project) (id : Int) : Project :=
  match projects with
  | [] => Project.zero
  | project :: rest => if project.ID = id then project else findProjectByID rest id

/-- The loop of `findProjectIndexByID`, at loop index `i`. -/
def findProjectIndexFrom (i : Nat) (projects : List Project) (id : Int) : Int :=
  match projects with
  | [] => -1
  | project :: rest =>
    if project.ID = id then (i : Int) else findProjectIndexFrom (i + 1) rest id

/-- To find the index of a project by ID: the first match, or -1. -/
def findProjectIndexByID (projects : List Project) (id : Int) : Int :=
  findProjectIndexFrom 0 projects id

/-- The loop of `findTaskIndexByID`, at loop index `i`. -/
def findTaskIndexFrom (i : Nat) (tasks : List Task) (taskID : Int) : Int :=
  match tasks with
  | [] => -1
  | task :: rest =>
    if task.ID = taskID then (i : Int) else findTaskIndexFrom (i + 1) rest taskID

/-- To find the index of a task within a project by ID: ranges over
`projects[projectIndex].Tasks`. -/
def findTaskIndexByID (projects : List Project) (projectIndex taskID : Int) : Option Int :=
  match goIndex projects projectIndex with
  | none => none
  | some project => some (findTaskIndexFrom 0 project.Tasks taskID)

/-- To generate a new unique ID for a project or task: `len(projects) + 1`. -/
def generateID (projects : List Project) : Int :=
  (projects.length : Int) + 1

/-! ## Handlers (`main.go`, lines 44-173) -/

/-- Returns the list of all projects. -/
def getProjects (projects : List Project) : Option (List Project × Response) :=
  some (projects, ⟨StatusOK, Payload.projects projects⟩)

/-- Returns a specific project by ID. -/
def getProject (projects : List Project) (idParam : Option Int) :
    Option (List Project × Response) :=
  let id := getIDParam idParam
  let project := findProjectByID projects id
  if project.ID = 0 then some (projects, projectNotFound)
  else some (projects, ⟨StatusOK, Payload.project project⟩)

/-- Creates a new project. -/
def createProject (projects : List Project) (body : Except String Project) :
    Option (List Project × Response) :=
  match body with
  | Except.error err => some (projects, badRequest err)
  | Except.ok bound =>
    let newProject : Project := { bound with ID := generateID projects }
    some (projects ++ [newProject], ⟨StatusCreated, Payload.project newProject⟩)

/-- Updates an existing project by ID. -/
def updateProject (projects : List Project) (idParam : Option Int)
    (body : Except String Project) : Option (List Project × Response) :=
  let id := getIDParam idParam
  let index := findProjectIndexByID projects id
  if index = -1 then some (projects, projectNotFound)
  else
    match body with
    | Except.error err => some (projects, badRequest err)
    | Except.ok bound =>
      let updatedProject : Project := { bound with ID := id }
      match goAssign projects index updatedProject with
      | none => none
      | some projects1 => some (projects1, ⟨StatusOK, Payload.project updatedProject⟩)

/-- Deletes a project by ID. -/
def deleteProject (projects : List Project) (idParam : Option Int) :
    Option (List Project × Response) :=
  let id := getIDParam idParam
  let index := findProjectIndexByID projects id
  if index = -1 then some (projects, projectNotFound)
  else
    match goSliceTo projects index, goSliceFrom projects (index + 1) with
    | some front, some back => some (front ++ back, ⟨StatusNoContent, Payload.null⟩)
    | _, _ => none

/-- Adds a new task to a project. -/
def createTask (projects : List Project) (idParam : Option Int)
    (body : Except String Task) : Option (List Project × Response) :=
  let projectID := getIDParam idParam
  let index := findProjectIndexByID projects projectID
  if index = -1 then some (projects, projectNotFound)
  else
    match body with
    | Except.error err => some (projects, badRequest err)
    | Except.ok bound =>
      let newTask : Task := { bound with ID := generateID projects }
      match goIndex projects index with
      | none => none
      | some project =>
        match goAssign projects index { project with Tasks := project.Tasks ++ [newTask] } with
        | none => none
        | some projects1 => some (projects1, ⟨StatusCreated, Payload.task newTask⟩)

/-- Updates an existing task within a project by ID. -/
def updateTask (projects : List Project) (idParam taskIDParam : Option Int)
    (body : Except String Task) : Option (List Project × Response) :=
  let projectID := getIDParam idParam
  let taskID := getTaskIDParam taskIDParam
  let projectIndex := findProjectIndexByID projects projectID
  if projectIndex = -1 then some (projects, projectNotFound)
  else
    match findTaskIndexByID projects projectIndex taskID with
    | none => none
    | some taskIndex =>
      if taskIndex = -1 then some (projects, taskNotFound)
      else
        match body with
        | Except.error err => some (projects, badRequest err)
        | Except.ok bound =>
          let updatedTask : Task := { bound with ID := taskID }
          match goIndex projects projectIndex with
          | none => none
          | some project =>
            match goAssign project.Tasks taskIndex updatedTask with
            | none => none
            | some tasks1 =>
              match goAssign projects projectIndex { project with Tasks := tasks1 } with
              | none => none
              | some projects1 => some (projects1, ⟨StatusOK, Payload.task updatedTask⟩)

/-- Deletes a task within a project by ID. -/
def deleteTask (projects : List Project) (idParam taskIDParam : Option Int) :
    Option (List Project × Response) :=
  let projectID := getIDParam idParam
  let taskID := getTaskIDParam taskIDParam
  let projectIndex := findProjectIndexByID projects projectID
  if projectIndex = -1 then some (projects, projectNotFound)
  else
    match findTaskIndexByID projects projectIndex taskID with
    | none => none
    | some taskIndex =>
      if taskIndex = -1 then some (projects, taskNotFound)
      else
        match goIndex projects projectIndex with
        | none => none
        | some project =>
          match goSliceTo project.Tasks taskIndex, goSliceFrom project.Tasks (taskIndex + 1) with
          | some front, some back =>
            match goAssign projects projectIndex { project with Tasks := front ++ back } with
            | none => none
            | some projects1 => some (projects1, ⟨StatusNoContent, Payload.null⟩)
          | _, _ => none

/-! ## The API as a transition system (`main.go`, lines 31-39) -/

/-- A request to one of the eight routes registered in `main`. -/
inductive Request where
  | getProjects
  | getProject (id : Option Int)
  | createProject (body : Except String Project)
  | updateProject (id : Option Int) (body : Except String Project)
  | deleteProject (id : Option Int)
  | createTask (id : Option Int) (body : Except String Task)
  | updateTask (id taskID : Option Int) (body : Except String Task)
  | deleteTask (id taskID : Option Int)

/-- Route dispatch. -/
def handle (projects : List Project) (req : Request) : Option (List Project × Response) :=
  match req with
  | Request.getProjects => getProjects projects
  | Request.getProject id => getProject projects id
  | Request.createProject body => createProject projects body
  | Request.updateProject id body => updateProject projects id body
  | Request.deleteProject id => deleteProject projects id
  | Request.createTask id body => createTask projects id body
  | Request.updateTask id taskID body => updateTask projects id taskID body
  | Request.deleteTask id taskID => deleteTask projects id taskID

/-- Serve a sequence of requests one after the other, keeping only the store. -/
def run (projects : List Project) (reqs : List Request) : Option (List Project) :=
  match reqs with
  | [] => some projects
  | req :: rest =>
    match handle projects req with
    | none => none
    | some (projects1, _) => run projects1 rest

/-- A store state reachable from the empty store (`var projects []Project`)
by a finite sequence of requests. -/
def Reachable (projects : List Project) : Prop :=
  ∃ reqs : List Request, run [] reqs = some projects

/-- A request that brings no repeated task identifier into a project: the body of
a `createProject` or `updateProject` carries pairwise distinct task identifiers,
and the request is not a `createTask` (whose identifier comes from `generateID`). -/
def Request.keepsTaskIDsDistinct : Request → Prop
  | Request.createProject (Except.ok bound) => (bound.Tasks.map Task.ID).Nodup
  | Request.updateProject _ (Except.ok bound) => (bound.Tasks.map Task.ID).Nodup
  | Request.createTask _ _ => False
  | _ => True

/-- A request to the route `DELETE /projects/:id`. -/
def Request.isDeleteProject : Request → Bool
  | Request.deleteProject _ => true
  | _ => false

/-! ## Facts about the Go slice primitives -/

theorem goIndex_split {α : Type} (front : List α) (x : α) (back : List α) :
    goIndex (front ++ x :: back) (front.length : Int) = some x := by
  unfold goIndex
  have h : (0 : Int) ≤ (front.length : Int) ∧
      (front.length : Int) < ((front ++ x :: back).length : Int) := by
    constructor
    · exact Int.ofNat_nonneg _
    · simp only [List.length_append, List.length_cons]; omega
  rw [if_pos h, Int.toNat_ofNat, List.get?_eq_getElem?, List.getElem?_append_right (le_refl _)]
  simp

theorem goAssign_split {α : Type} (front : List α) (x v : α) (back : List α) :
    goAssign (front ++ x :: back) (front.length : Int) v = some (front ++ v :: back) := by
  unfold goAssign
  have h : (0 : Int) ≤ (front.length : Int) ∧
      (front.length : Int) < ((front ++ x :: back).length : Int) := by
    constructor
    · exact Int.ofNat_nonneg _
    · simp only [List.length_append, List.length_cons]; omega
  rw [if_pos h]
  simp

theorem goSliceTo_split {α : Type} (front : List α) (x : α) (back : List α) :
    goSliceTo (front ++ x :: back) (front.length : Int) = some front := by
  unfold goSliceTo
  have h : (0 : Int) ≤ (front.length : Int) ∧
      (front.length : Int) ≤ ((front ++ x :: back).length : Int) := by
    constructor
    · exact Int.ofNat_nonneg _
    · simp only [List.length_append, List.length_cons]; omega
  rw [if_pos h]
  simp

theorem goSliceFrom_split {α : Type} (front : List α) (x : α) (back : List α) :
    goSliceFrom (front ++ x :: back) ((front.length : Int) + 1) = some back := by
  unfold goSliceFrom
  have h : (0 : Int) ≤ (front.length : Int) + 1 ∧
      (front.length : Int) + 1 ≤ ((front ++ x :: back).length : Int) := by
    constructor
    · omega
    · simp only [List.length_append, List.length_cons]; omega
  rw [if_pos h]
  have e : ((front.length : Int) + 1).toNat = front.length + 1 := by omega
  rw [e]
  simp

/-! ## Facts about the linear scans -/

theorem findProjectIndexFrom_missing (projects : List Project) (id : Int) (i : Nat)
    (h : ∀ p ∈ projects, p.ID ≠ id) : findProjectIndexFrom i projects id = -1 := by
  induction projects generalizing i with
  | nil => rfl
  | cons p rest ih =>
    have hp : p.ID ≠ id := h p (List.mem_cons_self _ _)
    simp only [findProjectIndexFrom, if_neg hp]
    exact ih (i + 1) (fun q hq => h q (List.mem_cons_of_mem _ hq))

theorem findProjectIndexFrom_split (front : List Project) (p : Project) (back : List Project)
    (id : Int) (i : Nat) (hp : p.ID = id) (hfront : ∀ q ∈ front, q.ID ≠ id) :
    findProjectIndexFrom i (front ++ p :: back) id = ((i + front.length : Nat) : Int) := by
  induction front generalizing i with
  | nil => simp [findProjectIndexFrom, hp]
  | cons q rest ih =>
    have hq : q.ID ≠ id := hfront q (List.mem_cons_self _ _)
    show findProjectIndexFrom i (q :: (rest ++ p :: back)) id = _
    simp only [findProjectIndexFrom, if_neg hq]
    rw [ih (i + 1) (fun r hr => hfront r (List.mem_cons_of_mem _ hr))]
    simp only [List.length_cons]
    congr 1
    omega

theorem findProjectIndexByID_missing (projects : List Project) (id : Int)
    (h : ∀ p ∈ projects, p.ID ≠ id) : findProjectIndexByID projects id = -1 :=
  findProjectIndexFrom_missing projects id 0 h

theorem findProjectIndexByID_split (front : List Project) (p : Project) (back : List Project)
    (id : Int) (hp : p.ID = id) (hfront : ∀ q ∈ front, q.ID ≠ id) :
    findProjectIndexByID (front ++ p :: back) id = (front.length : Int) := by
  unfold findProjectIndexByID
  rw [findProjectIndexFrom_split front p back id 0 hp hfront]
  simp

theorem findTaskIndexFrom_missing (tasks : List Task) (taskID : Int) (i : Nat)
    (h : ∀ t ∈ tasks, t.ID ≠ taskID) : findTaskIndexFrom i tasks taskID = -1 := by
  induction tasks generalizing i with
  | nil => rfl
  | cons t rest ih =>
    have ht : t.ID ≠ taskID := h t (List.mem_cons_self _ _)
    simp only [findTaskIndexFrom, if_neg ht]
    exact ih (i + 1) (fun q hq => h q (List.mem_cons_of_mem _ hq))

theorem findTaskIndexFrom_split (front : List Task) (t : Task) (back : List Task)
    (taskID : Int) (i : Nat) (ht : t.ID = taskID) (hfront : ∀ q ∈ front, q.ID ≠ taskID) :
    findTaskIndexFrom i (front ++ t :: back) taskID = ((i + front.length : Nat) : Int) := by
  induction front generalizing i with
  | nil => simp [findTaskIndexFrom, ht]
  | cons q rest ih =>
    have hq : q.ID ≠ taskID := hfront q (List.mem_cons_self _ _)
    show findTaskIndexFrom i (q :: (rest ++ t :: back)) taskID = _
    simp only [findTaskIndexFrom, if_neg hq]
    rw [ih (i + 1) (fun r hr => hfront r (List.mem_cons_of_mem _ hr))]
    simp only [List.length_cons]
    congr 1
    omega

/-- Either no project carries `id`, or the sequence splits at the first one that does. -/
theorem projects_split_or_missing (projects : List Project) (id : Int) :
    (∀ p ∈ projects, p.ID ≠ id) ∨
    ∃ front p back, projects = front ++ p :: back ∧ p.ID = id ∧ ∀ q ∈ front, q.ID ≠ id := by
  induction projects with
  | nil => left; intro p hp; cases hp
  | cons a rest ih =>
    by_cases ha : a.ID = id
    · right; exact ⟨[], a, rest, rfl, ha, fun q hq => by cases hq⟩
    · rcases ih with h | ⟨front, p, back, e, hp, hf⟩
      · left
        intro q hq
        rcases List.mem_cons.mp hq with rfl | hq
        · exact ha
        · exact h q hq
      · right
        refine ⟨a :: front, p, back, by rw [e]; rfl, hp, ?_⟩
        intro q hq
        rcases List.mem_cons.mp hq with rfl | hq
        · exact ha
        · exact hf q hq

/-- Either no task carries `taskID`, or the sequence splits at the first one that does. -/
theorem tasks_split_or_missing (tasks : List Task) (taskID : Int) :
    (∀ t ∈ tasks, t.ID ≠ taskID) ∨
    ∃ front t back, tasks = front ++ t :: back ∧ t.ID = taskID ∧ ∀ q ∈ front, q.ID ≠ taskID := by
  induction tasks with
  | nil => left; intro t ht; cases ht
  | cons a rest ih =>
    by_cases ha : a.ID = taskID
    · right; exact ⟨[], a, rest, rfl, ha, fun q hq => by cases hq⟩
    · rcases ih with h | ⟨front, t, back, e, ht, hf⟩
      · left
        intro q hq
        rcases List.mem_cons.mp hq with rfl | hq
        · exact ha
        · exact h q hq
      · right
        refine ⟨a :: front, t, back, by rw [e]; rfl, ht, ?_⟩
        intro q hq
        rcases List.mem_cons.mp hq with rfl | hq
        · exact ha
        · exact hf q hq

theorem int_natCast_ne_neg_one (n : Nat) : ((n : Int) = -1) = False := by
  apply eq_false
  omega

/-! ## What each handler does, by case -/

theorem findProjectByID_missing (projects : List Project) (id : Int)
    (h : ∀ p ∈ projects, p.ID ≠ id) : findProjectByID projects id = Project.zero := by
  induction projects with
  | nil => rfl
  | cons p rest ih =>
    have hp : p.ID ≠ id := h p (List.mem_cons_self _ _)
    simp only [findProjectByID, if_neg hp]
    exact ih (fun q hq => h q (List.mem_cons_of_mem _ hq))

theorem findProjectByID_split (front : List Project) (p : Project) (back : List Project)
    (id : Int) (hp : p.ID = id) (hfront : ∀ q ∈ front, q.ID ≠ id) :
    findProjectByID (front ++ p :: back) id = p := by
  induction front with
  | nil => simp [findProjectByID, hp]
  | cons q rest ih =>
    have hq : q.ID ≠ id := hfront q (List.mem_cons_self _ _)
    show findProjectByID (q :: (rest ++ p :: back)) id = p
    simp only [findProjectByID, if_neg hq]
    exact ih (fun r hr => hfront r (List.mem_cons_of_mem _ hr))

theorem updateProject_missing (projects : List Project) (idParam : Option Int)
    (body : Except String Project) (h : ∀ p ∈ projects, p.ID ≠ getIDParam idParam) :
    updateProject projects idParam body = some (projects, projectNotFound) := by
  simp only [updateProject, findProjectIndexByID_missing projects _ h, if_true]

theorem updateProject_split (front : List Project) (p : Project) (back : List Project)
    (idParam : Option Int) (bound : Project) (hp : p.ID = getIDParam idParam)
    (hfront : ∀ q ∈ front, q.ID ≠ getIDParam idParam) :
    updateProject (front ++ p :: back) idParam (Except.ok bound) =
      some (front ++ ⟨getIDParam idParam, bound.Title, bound.Tasks⟩ :: back,
        ⟨StatusOK, Payload.project ⟨getIDParam idParam, bound.Title, bound.Tasks⟩⟩) := by
  simp only [updateProject, findProjectIndexByID_split front p back _ hp hfront,
    int_natCast_ne_neg_one, if_false, goAssign_split]

theorem updateProject_split_error (front : List Project) (p : Project) (back : List Project)
    (idParam : Option Int) (err : String) (hp : p.ID = getIDParam idParam)
    (hfront : ∀ q ∈ front, q.ID ≠ getIDParam idParam) :
    updateProject (front ++ p :: back) idParam (Except.error err) =
      some (front ++ p :: back, badRequest err) := by
  simp only [updateProject, findProjectIndexByID_split front p back _ hp hfront,
    int_natCast_ne_neg_one, if_false]

theorem deleteProject_missing (projects : List Project) (idParam : Option Int)
    (h : ∀ p ∈ projects, p.ID ≠ getIDParam idParam) :
    deleteProject projects idParam = some (projects, projectNotFound) := by
  simp only [deleteProject, findProjectIndexByID_missing projects _ h, if_true]

theorem deleteProject_split (front : List Project) (p : Project) (back : List Project)
    (idParam : Option Int) (hp : p.ID = getIDParam idParam)
    (hfront : ∀ q ∈ front, q.ID ≠ getIDParam idParam) :
    deleteProject (front ++ p :: back) idParam =
      some (front ++ back, ⟨StatusNoContent, Payload.null⟩) := by
  simp only [deleteProject, findProjectIndexByID_split front p back _ hp hfront,
    int_natCast_ne_neg_one, if_false, goSliceTo_split, goSliceFrom_split]

theorem createTask_missing (projects : List Project) (idParam : Option Int)
    (body : Except String Task) (h : ∀ p ∈ projects, p.ID ≠ getIDParam idParam) :
    createTask projects idParam body = some (projects, projectNotFound) := by
  simp only [createTask, findProjectIndexByID_missing projects _ h, if_true]

theorem createTask_split (front : List Project) (p : Project) (back : List Project)
    (idParam : Option Int) (bound : Task) (hp : p.ID = getIDParam idParam)
    (hfront : ∀ q ∈ front, q.ID ≠ getIDParam idParam) :
    createTask (front ++ p :: back) idParam (Except.ok bound) =
      some (front ++ ⟨p.ID, p.Title, p.Tasks ++
          [⟨generateID (front ++ p :: back), bound.Title, bound.Status⟩]⟩ :: back,
        ⟨StatusCreated,
          Payload.task ⟨generateID (front ++ p :: back), bound.Title, bound.Status⟩⟩) := by
  simp only [createTask, findProjectIndexByID_split front p back _ hp hfront,
    int_natCast_ne_neg_one, if_false, goIndex_split, goAssign_split]

theorem createTask_split_error (front : List Project) (p : Project) (back : List Project)
    (idParam : Option Int) (err : String) (hp : p.ID = getIDParam idParam)
    (hfront : ∀ q ∈ front, q.ID ≠ getIDParam idParam) :
    createTask (front ++ p :: back) idParam (Except.error err) =
      some (front ++ p :: back, badRequest err) := by
  simp only [createTask, findProjectIndexByID_split front p back _ hp hfront,
    int_natCast_ne_neg_one, if_false]

theorem updateTask_missing (projects : List Project) (idParam taskIDParam : Option Int)
    (body : Except String Task) (h : ∀ p ∈ projects, p.ID ≠ getIDParam idParam) :
    updateTask projects idParam taskIDParam body = some (projects, projectNotFound) := by
  simp only [updateTask, findProjectIndexByID_missing projects _ h, if_true]

theorem updateTask_task_missing (front : List Project) (p : Project) (back : List Project)
    (idParam taskIDParam : Option Int) (body : Except String Task)
    (hp : p.ID = getIDParam idParam) (hfront : ∀ q ∈ front, q.ID ≠ getIDParam idParam)
    (ht : ∀ t ∈ p.Tasks, t.ID ≠ getTaskIDParam taskIDParam) :
    updateTask (front ++ p :: back) idParam taskIDParam body =
      some (front ++ p :: back, taskNotFound) := by
  simp only [updateTask, findProjectIndexByID_split front p back _ hp hfront,
    int_natCast_ne_neg_one, if_false, findTaskIndexByID, goIndex_split,
    findTaskIndexFrom_missing p.Tasks _ 0 ht, if_true]

theorem updateTask_split (front : List Project) (p : Project) (back : List Project)
    (tfront : List Task) (t : Task) (tback : List Task)
    (idParam taskIDParam : Option Int) (bound : Task)
    (hp : p.ID = getIDParam idParam) (hfront : ∀ q ∈ front, q.ID ≠ getIDParam idParam)
    (hsplit : p.Tasks = tfront ++ t :: tback) (ht : t.ID = getTaskIDParam taskIDParam)
    (htfront : ∀ q ∈ tfront, q.ID ≠ getTaskIDParam taskIDParam) :
    updateTask (front ++ p :: back) idParam taskIDParam (Except.ok bound) =
      some (front ++ ⟨p.ID, p.Title,
          tfront ++ ⟨getTaskIDParam taskIDParam, bound.Title, bound.Status⟩ :: tback⟩ :: back,
        ⟨StatusOK, Payload.task ⟨getTaskIDParam taskIDParam, bound.Title, bound.Status⟩⟩) := by
  have e : findTaskIndexFrom 0 p.Tasks (getTaskIDParam taskIDParam) = (tfront.length : Int) := by
    rw [hsplit, findTaskIndexFrom_split tfront t tback _ 0 ht htfront]
    simp
  simp only [updateTask, findProjectIndexByID_split front p back _ hp hfront,
    int_natCast_ne_neg_one, if_false, findTaskIndexByID, goIndex_split, e]
  rw [hsplit]
  simp only [goAssign_split]

theorem updateTask_split_error (front : List Project) (p : Project) (back : List Project)
    (tfront : List Task) (t : Task) (tback : List Task)
    (idParam taskIDParam : Option Int) (err : String)
    (hp : p.ID = getIDParam idParam) (hfront : ∀ q ∈ front, q.ID ≠ getIDParam idParam)
    (hsplit : p.Tasks = tfront ++ t :: tback) (ht : t.ID = getTaskIDParam taskIDParam)
    (htfront : ∀ q ∈ tfront, q.ID ≠ getTaskIDParam taskIDParam) :
    updateTask (front ++ p :: back) idParam taskIDParam (Except.error err) =
      some (front ++ p :: back, badRequest err) := by
  have e : findTaskIndexFrom 0 p.Tasks (getTaskIDParam taskIDParam) = (tfront.length : Int) := by
    rw [hsplit, findTaskIndexFrom_split tfront t tback _ 0 ht htfront]
    simp
  simp only [updateTask, findProjectIndexByID_split front p back _ hp hfront,
    int_natCast_ne_neg_one, if_false, findTaskIndexByID, goIndex_split, e]

theorem deleteTask_missing (projects : List Project) (idParam taskIDParam : Option Int)
    (h : ∀ p ∈ projects, p.ID ≠ getIDParam idParam) :
    deleteTask projects idParam taskIDParam = some (projects, projectNotFound) := by
  simp only [deleteTask, findProjectIndexByID_missing projects _ h, if_true]

theorem deleteTask_task_missing (front : List Project) (p : Project) (back : List Project)
    (idParam taskIDParam : Option Int)
    (hp : p.ID = getIDParam idParam) (hfront : ∀ q ∈ front, q.ID ≠ getIDParam idParam)
    (ht : ∀ t ∈ p.Tasks, t.ID ≠ getTaskIDParam taskIDParam) :
    deleteTask (front ++ p :: back) idParam taskIDParam =
      some (front ++ p :: back, taskNotFound) := by
  simp only [deleteTask, findProjectIndexByID_split front p back _ hp hfront,
    int_natCast_ne_neg_one, if_false, findTaskIndexByID, goIndex_split,
    findTaskIndexFrom_missing p.Tasks _ 0 ht, if_true]

theorem deleteTask_split (front : List Project) (p : Project) (back : List Project)
    (tfront : List Task) (t : Task) (tback : List Task)
    (idParam taskIDParam : Option Int)
    (hp : p.ID = getIDParam idParam) (hfront : ∀ q ∈ front, q.ID ≠ getIDParam idParam)
    (hsplit : p.Tasks = tfront ++ t :: tback) (ht : t.ID = getTaskIDParam taskIDParam)
    (htfront : ∀ q ∈ tfront, q.ID ≠ getTaskIDParam taskIDParam) :
    deleteTask (front ++ p :: back) idParam taskIDParam =
      some (front ++ ⟨p.ID, p.Title, tfront ++ tback⟩ :: back,
        ⟨StatusNoContent, Payload.null⟩) := by
  have e : findTaskIndexFrom 0 p.Tasks (getTaskIDParam taskIDParam) = (tfront.length : Int) := by
    rw [hsplit, findTaskIndexFrom_split tfront t tback _ 0 ht htfront]
    simp
  simp only [deleteTask, findProjectIndexByID_split front p back _ hp hfront,
    int_natCast_ne_neg_one, if_false, findTaskIndexByID, goIndex_split, e]
  rw [hsplit]
  simp only [goSliceTo_split, goSliceFrom_split, goAssign_split]

/-! ## Every transition of the store -/

/-- The seven ways in which a request that returns can leave the store. -/
theorem handle_outcome (projects : List Project) (req : Request) (projects1 : List Project)
    (resp : Response) (h : handle projects req = some (projects1, resp)) :
    projects1 = projects ∨
    (∃ bound : Project, req = Request.createProject (Except.ok bound) ∧
      projects1 = projects ++ [⟨generateID projects, bound.Title, bound.Tasks⟩]) ∨
    (∃ front p back, projects = front ++ p :: back ∧ projects1 = front ++ back) ∨
    (∃ front p back id, ∃ bound : Project, req = Request.updateProject id (Except.ok bound) ∧
      projects = front ++ p :: back ∧
      projects1 = front ++ ⟨p.ID, bound.Title, bound.Tasks⟩ :: back) ∨
    (∃ front p back id, ∃ bound : Task, req = Request.createTask id (Except.ok bound) ∧
      projects = front ++ p :: back ∧
      projects1 = front ++ ⟨p.ID, p.Title,
        p.Tasks ++ [⟨generateID projects, bound.Title, bound.Status⟩]⟩ :: back) ∨
    (∃ front p back tfront t tback, ∃ bound : Task,
      projects = front ++ p :: back ∧ p.Tasks = tfront ++ t :: tback ∧
      projects1 = front ++ ⟨p.ID, p.Title, tfront ++ ⟨t.ID, bound.Title, bound.Status⟩ :: tback⟩
        :: back) ∨
    (∃ front p back tfront t tback,
      projects = front ++ p :: back ∧ p.Tasks = tfront ++ t :: tback ∧
      projects1 = front ++ ⟨p.ID, p.Title, tfront ++ tback⟩ :: back) := by
  cases req with
  | getProjects =>
    simp only [handle, getProjects, Option.some.injEq, Prod.mk.injEq] at h
    exact Or.inl h.1.symm
  | getProject id =>
    simp only [handle, getProject] at h
    split at h <;>
      (simp only [Option.some.injEq, Prod.mk.injEq] at h; exact Or.inl h.1.symm)
  | createProject body =>
    cases body with
    | error err =>
      simp only [handle, createProject, Option.some.injEq, Prod.mk.injEq] at h
      exact Or.inl h.1.symm
    | ok bound =>
      simp only [handle, createProject, Option.some.injEq, Prod.mk.injEq] at h
      exact Or.inr (Or.inl ⟨bound, rfl, h.1.symm⟩)
  | updateProject id body =>
    rcases projects_split_or_missing projects (getIDParam id) with hm | ⟨front, p, back, e, hp, hf⟩
    · simp only [handle, updateProject_missing projects id body hm, Option.some.injEq,
        Prod.mk.injEq] at h
      exact Or.inl h.1.symm
    · subst e
      cases body with
      | error err =>
        simp only [handle, updateProject_split_error front p back id err hp hf,
          Option.some.injEq, Prod.mk.injEq] at h
        exact Or.inl h.1.symm
      | ok bound =>
        simp only [handle, updateProject_split front p back id bound hp hf,
          Option.some.injEq, Prod.mk.injEq] at h
        refine Or.inr (Or.inr (Or.inr (Or.inl ⟨front, p, back, id, bound, rfl, rfl, ?_⟩)))
        rw [hp]; exact h.1.symm
  | deleteProject id =>
    rcases projects_split_or_missing projects (getIDParam id) with hm | ⟨front, p, back, e, hp, hf⟩
    · simp only [handle, deleteProject_missing projects id hm, Option.some.injEq,
        Prod.mk.injEq] at h
      exact Or.inl h.1.symm
    · subst e
      simp only [handle, deleteProject_split front p back id hp hf, Option.some.injEq,
        Prod.mk.injEq] at h
      exact Or.inr (Or.inr (Or.inl ⟨front, p, back, rfl, h.1.symm⟩))
  | createTask id body =>
    rcases projects_split_or_missing projects (getIDParam id) with hm | ⟨front, p, back, e, hp, hf⟩
    · simp only [handle, createTask_missing projects id body hm, Option.some.injEq,
        Prod.mk.injEq] at h
      exact Or.inl h.1.symm
    · subst e
      cases body with
      | error err =>
        simp only [handle, createTask_split_error front p back id err hp hf,
          Option.some.injEq, Prod.mk.injEq] at h
        exact Or.inl h.1.symm
      | ok bound =>
        simp only [handle, createTask_split front p back id bound hp hf,
          Option.some.injEq, Prod.mk.injEq] at h
        exact Or.inr (Or.inr (Or.inr (Or.inr (Or.inl
          ⟨front, p, back, id, bound, rfl, rfl, h.1.symm⟩))))
  | updateTask id taskID body =>
    rcases projects_split_or_missing projects (getIDParam id) with hm | ⟨front, p, back, e, hp, hf⟩
    · simp only [handle, updateTask_missing projects id taskID body hm, Option.some.injEq,
        Prod.mk.injEq] at h
      exact Or.inl h.1.symm
    · subst e
      rcases tasks_split_or_missing p.Tasks (getTaskIDParam taskID) with
        htm | ⟨tfront, t, tback, te, ht, htf⟩
      · simp only [handle, updateTask_task_missing front p back id taskID body hp hf htm,
          Option.some.injEq, Prod.mk.injEq] at h
        exact Or.inl h.1.symm
      · cases body with
        | error err =>
          simp only [handle,
            updateTask_split_error front p back tfront t tback id taskID err hp hf te ht htf,
            Option.some.injEq, Prod.mk.injEq] at h
          exact Or.inl h.1.symm
        | ok bound =>
          simp only [handle,
            updateTask_split front p back tfront t tback id taskID bound hp hf te ht htf,
            Option.some.injEq, Prod.mk.injEq] at h
          refine Or.inr (Or.inr (Or.inr (Or.inr (Or.inr (Or.inl
            ⟨front, p, back, tfront, t, tback, bound, rfl, te, ?_⟩)))))
          rw [ht]; exact h.1.symm
  | deleteTask id taskID =>
    rcases projects_split_or_missing projects (getIDParam id) with hm | ⟨front, p, back, e, hp, hf⟩
    · simp only [handle, deleteTask_missing projects id taskID hm, Option.some.injEq,
        Prod.mk.injEq] at h
      exact Or.inl h.1.symm
    · subst e
      rcases tasks_split_or_missing p.Tasks (getTaskIDParam taskID) with
        htm | ⟨tfront, t, tback, te, ht, htf⟩
      · simp only [handle, deleteTask_task_missing front p back id taskID hp hf htm,
          Option.some.injEq, Prod.mk.injEq] at h
        exact Or.inl h.1.symm
      · simp only [handle,
          deleteTask_split front p back tfront t tback id taskID hp hf te ht htf,
          Option.some.injEq, Prod.mk.injEq] at h
        exact Or.inr (Or.inr (Or.inr (Or.inr (Or.inr (Or.inr
          ⟨front, p, back, tfront, t, tback, rfl, te, h.1.symm⟩)))))

/-- No request panics: every handler returns on every store. -/
theorem handle_returns (projects : List Project) (req : Request) :
    ∃ projects1 resp, handle projects req = some (projects1, resp) := by
  cases req with
  | getProjects => exact ⟨_, _, rfl⟩
  | getProject id =>
    simp only [handle, getProject]
    split <;> exact ⟨_, _, rfl⟩
  | createProject body =>
    cases body with
    | error err => exact ⟨_, _, rfl⟩
    | ok bound => exact ⟨_, _, rfl⟩
  | updateProject id body =>
    rcases projects_split_or_missing projects (getIDParam id) with hm | ⟨front, p, back, e, hp, hf⟩
    · exact ⟨_, _, updateProject_missing projects id body hm⟩
    · subst e
      cases body with
      | error err => exact ⟨_, _, updateProject_split_error front p back id err hp hf⟩
      | ok bound => exact ⟨_, _, updateProject_split front p back id bound hp hf⟩
  | deleteProject id =>
    rcases projects_split_or_missing projects (getIDParam id) with hm | ⟨front, p, back, e, hp, hf⟩
    · exact ⟨_, _, deleteProject_missing projects id hm⟩
    · subst e
      exact ⟨_, _, deleteProject_split front p back id hp hf⟩
  | createTask id body =>
    rcases projects_split_or_missing projects (getIDParam id) with hm | ⟨front, p, back, e, hp, hf⟩
    · exact ⟨_, _, createTask_missing projects id body hm⟩
    · subst e
      cases body with
      | error err => exact ⟨_, _, createTask_split_error front p back id err hp hf⟩
      | ok bound => exact ⟨_, _, createTask_split front p back id bound hp hf⟩
  | updateTask id taskID body =>
    rcases projects_split_or_missing projects (getIDParam id) with hm | ⟨front, p, back, e, hp, hf⟩
    · exact ⟨_, _, updateTask_missing projects id taskID body hm⟩
    · subst e
      rcases tasks_split_or_missing p.Tasks (getTaskIDParam taskID) with
        htm | ⟨tfront, t, tback, te, ht, htf⟩
      · exact ⟨_, _, updateTask_task_missing front p back id taskID body hp hf htm⟩
      · cases body with
        | error err =>
          exact ⟨_, _,
            updateTask_split_error front p back tfront t tback id taskID err hp hf te ht htf⟩
        | ok bound =>
          exact ⟨_, _, updateTask_split front p back tfront t tback id taskID bound hp hf te ht htf⟩
  | deleteTask id taskID =>
    rcases projects_split_or_missing projects (getIDParam id) with hm | ⟨front, p, back, e, hp, hf⟩
    · exact ⟨_, _, deleteTask_missing projects id taskID hm⟩
    · subst e
      rcases tasks_split_or_missing p.Tasks (getTaskIDParam taskID) with
        htm | ⟨tfront, t, tback, te, ht, htf⟩
      · exact ⟨_, _, deleteTask_task_missing front p back id taskID hp hf htm⟩
      · exact ⟨_, _, deleteTask_split front p back tfront t tback id taskID hp hf te ht htf⟩

/-- Induction along `run`: a property of the store that every admitted request
preserves holds after any sequence of admitted requests. -/
theorem run_induction (P : List Project → Prop) (Q : Request → Prop)
    (hstep : ∀ s req s1 r, Q req → P s → handle s req = some (s1, r) → P s1)
    (reqs : List Request) (s s1 : List Project) (hQ : ∀ req ∈ reqs, Q req) (hs : P s)
    (h : run s reqs = some s1) : P s1 := by
  induction reqs generalizing s with
  | nil =>
    simp only [run, Option.some.injEq] at h
    exact h ▸ hs
  | cons req rest ih =>
    simp only [run] at h
    cases hh : handle s req with
    | none => rw [hh] at h; cases h
    | some out =>
      obtain ⟨s2, r⟩ := out
      rw [hh] at h
      exact ih s2 (fun q hq => hQ q (List.mem_cons_of_mem _ hq))
        (hstep s req s2 r (hQ req (List.mem_cons_self _ _)) hs hh) h

/-- One more request keeps a store reachable. -/
theorem Reachable.step {projects projects1 : List Project} {req : Request} {resp : Response}
    (hr : Reachable projects) (h : handle projects req = some (projects1, resp)) :
    Reachable projects1 := by
  obtain ⟨reqs, hreqs⟩ := hr
  refine ⟨reqs ++ [req], ?_⟩
  have key : ∀ (l : List Request) (s : List Project), run s l = some projects →
      run s (l ++ [req]) = some projects1 := by
    intro l
    induction l with
    | nil =>
      intro s hs
      simp only [run, Option.some.injEq] at hs
      subst hs
      simp only [List.nil_append, run, h]
    | cons a rest ih =>
      intro s hs
      simp only [run] at hs
      show run s (a :: (rest ++ [req])) = some projects1
      simp only [run]
      cases hh : handle s a with
      | none => rw [hh] at hs; cases hs
      | some out =>
        obtain ⟨s2, r⟩ := out
        rw [hh] at hs
        exact ih s2 hs
  exact key reqs [] hreqs

/-- Every project of a reachable store has a strictly positive identifier. -/
theorem reachable_ids_pos (projects : List Project) (h : Reachable projects) :
    ∀ p ∈ projects, 0 < p.ID := by
  obtain ⟨reqs, hreqs⟩ := h
  refine run_induction (fun s => ∀ p ∈ s, 0 < p.ID) (fun _ => True) ?_ reqs [] projects
    (fun _ _ => trivial) (fun p hp => by cases hp) hreqs
  intro s req s1 r _ hs hh
  rcases handle_outcome s req s1 r hh with e | ⟨bound, _, e⟩ | ⟨front, p, back, e0, e⟩ |
    ⟨front, p, back, id, bound, _, e0, e⟩ | ⟨front, p, back, id, bound, _, e0, e⟩ |
    ⟨front, p, back, tfront, t, tback, bound, e0, _, e⟩ |
    ⟨front, p, back, tfront, t, tback, e0, _, e⟩
  · rw [e]; exact hs
  · subst e
    intro q hq
    rcases List.mem_append.mp hq with hq | hq
    · exact hs q hq
    · rw [List.mem_singleton.mp hq]
      show (0 : Int) < generateID s
      unfold generateID
      omega
  · subst e0 e
    intro q hq
    apply hs q
    rcases List.mem_append.mp hq with hq | hq
    · exact List.mem_append_left _ hq
    · exact List.mem_append_right _ (List.mem_cons_of_mem _ hq)
  all_goals
    subst e0 e
    intro q hq
    rcases List.mem_append.mp hq with hq | hq
    · exact hs q (List.mem_append_left _ hq)
    · rcases List.mem_cons.mp hq with hq | hq
      · rw [hq]
        exact hs p (List.mem_append_right _ (List.mem_cons_self _ _))
      · exact hs q (List.mem_append_right _ (List.mem_cons_of_mem _ hq))

/-! ## Claims about identifiers and retrieval -/

/-- C1 (fails on the code): after `createProject; createProject; deleteProject 1`
the store holds one project with identifier 2; the next `createProject` returns a
project that again has identifier 2 (non-zero, as claimed), and `getProject 2`
made immediately afterwards returns the older project titled "B", not the
project titled "C" that was just submitted. -/
theorem createProject_then_getProject_returns_older_project :
    run [] [Request.createProject (Except.ok ⟨0, "A", []⟩),
        Request.createProject (Except.ok ⟨0, "B", []⟩),
        Request.deleteProject (some 1)] = some [⟨2, "B", []⟩] ∧
    createProject [⟨2, "B", []⟩] (Except.ok ⟨0, "C", []⟩) =
      some ([⟨2, "B", []⟩, ⟨2, "C", []⟩], ⟨StatusCreated, Payload.project ⟨2, "C", []⟩⟩) ∧
    getProject [⟨2, "B", []⟩, ⟨2, "C", []⟩] (some 2) =
      some ([⟨2, "B", []⟩, ⟨2, "C", []⟩], ⟨StatusOK, Payload.project ⟨2, "B", []⟩⟩) :=
  ⟨rfl, rfl, rfl⟩

/-- C2 (fails on the code): create three projects, delete project 1, create a
fourth: the store is reachable and holds two projects with identifier 3. -/
theorem reachable_store_with_duplicate_project_ids :
    Reachable [⟨2, "b", []⟩, ⟨3, "c", []⟩, ⟨3, "d", []⟩] ∧
    ¬ (([⟨2, "b", []⟩, ⟨3, "c", []⟩, ⟨3, "d", []⟩] : List Project).map Project.ID).Nodup := by
  constructor
  · exact ⟨[Request.createProject (Except.ok ⟨0, "a", []⟩),
      Request.createProject (Except.ok ⟨0, "b", []⟩),
      Request.createProject (Except.ok ⟨0, "c", []⟩),
      Request.deleteProject (some 1),
      Request.createProject (Except.ok ⟨0, "d", []⟩)], rfl⟩
  · decide

/-- C3 (counterexample): a single `createProject` whose body carries two tasks
with identifier 7 reaches a store whose only project has two tasks with the same
identifier; the handler stores the submitted task sequence as it is. -/
theorem task_ids_repeated_from_body :
    run [] [Request.createProject
        (Except.ok ⟨0, "P", [⟨7, "a", "todo"⟩, ⟨7, "b", "todo"⟩]⟩)] =
      some [⟨1, "P", [⟨7, "a", "todo"⟩, ⟨7, "b", "todo"⟩]⟩] ∧
    ¬ ∀ p ∈ ([⟨1, "P", [⟨7, "a", "todo"⟩, ⟨7, "b", "todo"⟩]⟩] : List Project),
        (p.Tasks.map Task.ID).Nodup := by
  constructor
  · rfl
  · intro h
    exact absurd (h _ (List.mem_singleton.mpr rfl)) (by decide)

/-- C3 (amended): in every store reached from the empty store by requests that
bring in no repeated task identifier (any `getProjects`, `getProject`,
`deleteProject`, `updateTask`, `deleteTask`, and `createProject` / `updateProject`
whose body carries pairwise distinct task identifiers), no project's task
sequence contains two tasks with the same identifier. -/
theorem task_ids_unique_when_requests_keep_them_distinct (reqs : List Request)
    (projects : List Project) (hreqs : ∀ req ∈ reqs, req.keepsTaskIDsDistinct)
    (h : run [] reqs = some projects) :
    ∀ p ∈ projects, (p.Tasks.map Task.ID).Nodup := by
  refine run_induction (fun s => ∀ p ∈ s, (p.Tasks.map Task.ID).Nodup)
    Request.keepsTaskIDsDistinct ?_ reqs [] projects hreqs (fun p hp => by cases hp) h
  intro s req s1 r hQ hs hh
  rcases handle_outcome s req s1 r hh with e | ⟨bound, hreq, e⟩ | ⟨front, p, back, e0, e⟩ |
    ⟨front, p, back, id, bound, hreq, e0, e⟩ | ⟨front, p, back, id, bound, hreq, e0, e⟩ |
    ⟨front, p, back, tfront, t, tback, bound, e0, te, e⟩ |
    ⟨front, p, back, tfront, t, tback, e0, te, e⟩
  · rw [e]; exact hs
  · subst e
    rw [hreq] at hQ
    intro q hq
    rcases List.mem_append.mp hq with hq | hq
    · exact hs q hq
    · rw [List.mem_singleton.mp hq]
      exact hQ
  · subst e0 e
    intro q hq
    apply hs q
    rcases List.mem_append.mp hq with hq | hq
    · exact List.mem_append_left _ hq
    · exact List.mem_append_right _ (List.mem_cons_of_mem _ hq)
  · subst e0 e
    rw [hreq] at hQ
    intro q hq
    rcases List.mem_append.mp hq with hq | hq
    · exact hs q (List.mem_append_left _ hq)
    · rcases List.mem_cons.mp hq with hq | hq
      · rw [hq]
        exact hQ
      · exact hs q (List.mem_append_right _ (List.mem_cons_of_mem _ hq))
  · rw [hreq] at hQ
    exact absurd hQ (by simp [Request.keepsTaskIDsDistinct])
  · subst e0 e
    have hp := hs p (List.mem_append_right _ (List.mem_cons_self _ _))
    intro q hq
    rcases List.mem_append.mp hq with hq | hq
    · exact hs q (List.mem_append_left _ hq)
    · rcases List.mem_cons.mp hq with hq | hq
      · rw [hq]
        rw [te] at hp
        simpa using hp
      · exact hs q (List.mem_append_right _ (List.mem_cons_of_mem _ hq))
  · subst e0 e
    have hp := hs p (List.mem_append_right _ (List.mem_cons_self _ _))
    intro q hq
    rcases List.mem_append.mp hq with hq | hq
    · exact hs q (List.mem_append_left _ hq)
    · rcases List.mem_cons.mp hq with hq | hq
      · rw [hq]
        rw [te] at hp
        refine hp.sublist (List.Sublist.map _ ?_)
        exact List.Sublist.append (List.Sublist.refl _) (List.sublist_cons_self _ _)
      · exact hs q (List.mem_append_right _ (List.mem_cons_of_mem _ hq))

/-- C3 (amended), at a concrete input: a project created with tasks 1 and 2,
then task 2 replaced and task 1 deleted. -/
theorem task_ids_unique_when_requests_keep_them_distinct_witness :
    (∀ req ∈ [Request.createProject
          (Except.ok ⟨0, "P", [⟨1, "a", "todo"⟩, ⟨2, "b", "done"⟩]⟩),
        Request.updateTask (some 1) (some 2) (Except.ok ⟨9, "b2", "doing"⟩),
        Request.deleteTask (some 1) (some 1)], req.keepsTaskIDsDistinct) ∧
    run [] [Request.createProject
          (Except.ok ⟨0, "P", [⟨1, "a", "todo"⟩, ⟨2, "b", "done"⟩]⟩),
        Request.updateTask (some 1) (some 2) (Except.ok ⟨9, "b2", "doing"⟩),
        Request.deleteTask (some 1) (some 1)] = some [⟨1, "P", [⟨2, "b2", "doing"⟩]⟩] ∧
    ∀ p ∈ ([⟨1, "P", [⟨2, "b2", "doing"⟩]⟩] : List Project), (p.Tasks.map Task.ID).Nodup :=
  have hreqs : ∀ req ∈ [Request.createProject
          (Except.ok ⟨0, "P", [⟨1, "a", "todo"⟩, ⟨2, "b", "done"⟩]⟩),
        Request.updateTask (some 1) (some 2) (Except.ok ⟨9, "b2", "doing"⟩),
        Request.deleteTask (some 1) (some 1)], req.keepsTaskIDsDistinct := by
    simp [Request.keepsTaskIDsDistinct]
  ⟨hreqs, rfl, task_ids_unique_when_requests_keep_them_distinct _ _ hreqs rfl⟩

/-- C4 (counterexample): from the empty store, `createProject` with title
"Launch" returns project 1, and the following `createTask` under project 1 with
("Design", "todo") returns a task with identifier 2, not the task
{id 1, "Design", "todo"} of the claim. -/
theorem createTask_after_first_project_has_id_two :
    createProject [] (Except.ok ⟨0, "Launch", []⟩) =
      some ([⟨1, "Launch", []⟩], ⟨StatusCreated, Payload.project ⟨1, "Launch", []⟩⟩) ∧
    createTask [⟨1, "Launch", []⟩] (some 1) (Except.ok ⟨0, "Design", "todo"⟩) =
      some ([⟨1, "Launch", [⟨2, "Design", "todo"⟩]⟩],
        ⟨StatusCreated, Payload.task ⟨2, "Design", "todo"⟩⟩) ∧
    (⟨StatusCreated, Payload.task ⟨2, "Design", "todo"⟩⟩ : Response) ≠
      ⟨StatusCreated, Payload.task ⟨1, "Design", "todo"⟩⟩ :=
  ⟨rfl, rfl, by decide⟩

/-- C4 (amended): starting from the empty store, for every title `t`, task title
`u` and status `s` (and whatever id fields the bodies carry): `createProject`
returns the project {id 1, title t, no tasks}; a following `createTask` under
project 1 returns the task {id 2, title u, status s}; and `getProject 1` then
returns a project whose task sequence is exactly that one task. -/
theorem scenario_create_project_then_task (i j : Int) (t u s : String) :
    createProject [] (Except.ok ⟨i, t, []⟩) =
      some ([⟨1, t, []⟩], ⟨StatusCreated, Payload.project ⟨1, t, []⟩⟩) ∧
    createTask [⟨1, t, []⟩] (some 1) (Except.ok ⟨j, u, s⟩) =
      some ([⟨1, t, [⟨2, u, s⟩]⟩], ⟨StatusCreated, Payload.task ⟨2, u, s⟩⟩) ∧
    getProject [⟨1, t, [⟨2, u, s⟩]⟩] (some 1) =
      some ([⟨1, t, [⟨2, u, s⟩]⟩], ⟨StatusOK, Payload.project ⟨1, t, [⟨2, u, s⟩]⟩⟩) :=
  ⟨rfl, rfl, rfl⟩

/-- C5 (fails on the code): the store with two projects carrying identifier 2 is
reachable; `deleteProject 2` succeeds on it and removes only the first of them,
so that on the resulting store `getProject 2` answers 200 with the project titled
"C", `createTask 2` answers 201 and a second `deleteProject 2` answers 204. -/
theorem deleteProject_leaves_project_with_same_id :
    Reachable [⟨2, "B", []⟩, ⟨2, "C", []⟩] ∧
    deleteProject [⟨2, "B", []⟩, ⟨2, "C", []⟩] (some 2) =
      some ([⟨2, "C", []⟩], ⟨StatusNoContent, Payload.null⟩) ∧
    getProject [⟨2, "C", []⟩] (some 2) =
      some ([⟨2, "C", []⟩], ⟨StatusOK, Payload.project ⟨2, "C", []⟩⟩) ∧
    createTask [⟨2, "C", []⟩] (some 2) (Except.ok ⟨0, "x", "todo"⟩) =
      some ([⟨2, "C", [⟨2, "x", "todo"⟩]⟩], ⟨StatusCreated, Payload.task ⟨2, "x", "todo"⟩⟩) ∧
    deleteProject [⟨2, "C", []⟩] (some 2) = some ([], ⟨StatusNoContent, Payload.null⟩) :=
  ⟨⟨[Request.createProject (Except.ok ⟨0, "A", []⟩),
      Request.createProject (Except.ok ⟨0, "B", []⟩),
      Request.deleteProject (some 1),
      Request.createProject (Except.ok ⟨0, "C", []⟩)], rfl⟩, rfl, rfl, rfl, rfl⟩

/-! ## Claims about single operations -/

/-- C6: when some project carries the identifier `id` of the request,
`updateProject` with a bound body answers 200 and the store splits at the first
project carrying `id` as `front ++ old :: back`; the new store is
`front ++ new :: back` with `new` = {id, the body's title, the body's tasks}
(the body's own id field is dropped), so it has the same length and every other
position is unchanged. -/
theorem updateProject_replaces_first_match_in_place (projects : List Project)
    (idParam : Option Int) (bound : Project)
    (h : ∃ p ∈ projects, p.ID = getIDParam idParam) :
    ∃ front old back projects1,
      projects = front ++ old :: back ∧ old.ID = getIDParam idParam ∧
      (∀ q ∈ front, q.ID ≠ getIDParam idParam) ∧
      updateProject projects idParam (Except.ok bound) =
        some (projects1,
          ⟨StatusOK, Payload.project ⟨getIDParam idParam, bound.Title, bound.Tasks⟩⟩) ∧
      projects1 = front ++ ⟨getIDParam idParam, bound.Title, bound.Tasks⟩ :: back ∧
      projects1.length = projects.length := by
  rcases projects_split_or_missing projects (getIDParam idParam) with
    hm | ⟨front, old, back, e, hp, hf⟩
  · obtain ⟨p, hp, hid⟩ := h
    exact absurd hid (hm p hp)
  · subst e
    refine ⟨front, old, back, _, rfl, hp, hf,
      updateProject_split front old back idParam bound hp hf, rfl, ?_⟩
    simp

/-- C6 at a concrete input: replacing project 2 of three, with a body whose own
id field is 99. -/
theorem updateProject_replaces_first_match_in_place_witness :
    (∃ p ∈ ([⟨1, "a", []⟩, ⟨2, "b", []⟩, ⟨3, "c", []⟩] : List Project),
      p.ID = getIDParam (some 2)) ∧
    ∃ front old back projects1,
      ([⟨1, "a", []⟩, ⟨2, "b", []⟩, ⟨3, "c", []⟩] : List Project) = front ++ old :: back ∧
      old.ID = getIDParam (some 2) ∧
      (∀ q ∈ front, q.ID ≠ getIDParam (some 2)) ∧
      updateProject [⟨1, "a", []⟩, ⟨2, "b", []⟩, ⟨3, "c", []⟩] (some 2)
          (Except.ok ⟨99, "B", [⟨5, "t", "todo"⟩]⟩) =
        some (projects1,
          ⟨StatusOK, Payload.project ⟨getIDParam (some 2), "B", [⟨5, "t", "todo"⟩]⟩⟩) ∧
      projects1 = front ++ ⟨getIDParam (some 2), "B", [⟨5, "t", "todo"⟩]⟩ :: back ∧
      projects1.length =
        ([⟨1, "a", []⟩, ⟨2, "b", []⟩, ⟨3, "c", []⟩] : List Project).length :=
  have h : ∃ p ∈ ([⟨1, "a", []⟩, ⟨2, "b", []⟩, ⟨3, "c", []⟩] : List Project),
      p.ID = getIDParam (some 2) :=
    ⟨⟨2, "b", []⟩, List.mem_cons_of_mem _ (List.mem_cons_self _ _), rfl⟩
  ⟨h, updateProject_replaces_first_match_in_place _ (some 2)
    ⟨99, "B", [⟨5, "t", "todo"⟩]⟩ h⟩

/-- C7: when no project carries the identifier of the request, `createTask`
answers 404 "Project not found" whatever the body (bound or failing to bind),
and the store is returned as it was. -/
theorem createTask_unknown_project_not_found (projects : List Project)
    (idParam : Option Int) (body : Except String Task)
    (h : ∀ p ∈ projects, p.ID ≠ getIDParam idParam) :
    createTask projects idParam body =
      some (projects, ⟨404, Payload.error "Project not found"⟩) :=
  createTask_missing projects idParam body h

/-- C7 at a concrete input: a task for project 7 in a store holding project 1. -/
theorem createTask_unknown_project_not_found_witness :
    (∀ p ∈ ([⟨1, "a", []⟩] : List Project), p.ID ≠ getIDParam (some 7)) ∧
    createTask [⟨1, "a", []⟩] (some 7) (Except.ok ⟨0, "t", "todo"⟩) =
      some ([⟨1, "a", []⟩], ⟨404, Payload.error "Project not found"⟩) :=
  have h : ∀ p ∈ ([⟨1, "a", []⟩] : List Project), p.ID ≠ getIDParam (some 7) := by
    intro p hp
    rw [List.mem_singleton.mp hp]
    decide
  ⟨h, createTask_unknown_project_not_found _ (some 7) (Except.ok ⟨0, "t", "todo"⟩) h⟩

/-- C8: if some project carries the identifier of the request, `deleteProject`
answers 204 and the new store is the old one without the first project carrying
it (`front ++ p :: back` becomes `front ++ back`); if none does, it answers 404
"Project not found" and the store is returned as it was. -/
theorem deleteProject_removes_first_match (projects : List Project) (idParam : Option Int) :
    ((∃ p ∈ projects, p.ID = getIDParam idParam) →
      ∃ front p back,
        projects = front ++ p :: back ∧ p.ID = getIDParam idParam ∧
        (∀ q ∈ front, q.ID ≠ getIDParam idParam) ∧
        deleteProject projects idParam =
          some (front ++ back, ⟨StatusNoContent, Payload.null⟩)) ∧
    ((∀ p ∈ projects, p.ID ≠ getIDParam idParam) →
      deleteProject projects idParam =
        some (projects, ⟨404, Payload.error "Project not found"⟩)) := by
  constructor
  · intro h
    rcases projects_split_or_missing projects (getIDParam idParam) with
      hm | ⟨front, p, back, e, hp, hf⟩
    · obtain ⟨p, hp, hid⟩ := h
      exact absurd hid (hm p hp)
    · subst e
      exact ⟨front, p, back, rfl, hp, hf, deleteProject_split front p back idParam hp hf⟩
  · intro h
    exact deleteProject_missing projects idParam h

/-- C8 at concrete inputs: deleting project 2 of three, and deleting the absent
project 9. -/
theorem deleteProject_removes_first_match_witness :
    (∃ front p back,
      ([⟨1, "a", []⟩, ⟨2, "b", []⟩, ⟨3, "c", []⟩] : List Project) = front ++ p :: back ∧
      p.ID = getIDParam (some 2) ∧ (∀ q ∈ front, q.ID ≠ getIDParam (some 2)) ∧
      deleteProject [⟨1, "a", []⟩, ⟨2, "b", []⟩, ⟨3, "c", []⟩] (some 2) =
        some (front ++ back, ⟨StatusNoContent, Payload.null⟩)) ∧
    deleteProject [⟨1, "a", []⟩] (some 9) =
      some ([⟨1, "a", []⟩], ⟨404, Payload.error "Project not found"⟩) :=
  ⟨(deleteProject_removes_first_match [⟨1, "a", []⟩, ⟨2, "b", []⟩, ⟨3, "c", []⟩] (some 2)).1
      ⟨⟨2, "b", []⟩, List.mem_cons_of_mem _ (List.mem_cons_self _ _), rfl⟩,
    (deleteProject_removes_first_match [⟨1, "a", []⟩] (some 9)).2 (by
      intro p hp
      rw [List.mem_singleton.mp hp]
      decide)⟩

/-- C9: on a reachable store, for every id parameter (a non-numeric one reads as
0): if some project carries the identifier, `getProject` answers 200 with the
first project carrying it, and `getProject` answers 404 "Project not found"
exactly when no project carries it. -/
theorem getProject_first_match_or_not_found (projects : List Project)
    (hreach : Reachable projects) (idParam : Option Int) :
    ((∃ p ∈ projects, p.ID = getIDParam idParam) →
      ∃ front p back,
        projects = front ++ p :: back ∧ p.ID = getIDParam idParam ∧
        (∀ q ∈ front, q.ID ≠ getIDParam idParam) ∧
        getProject projects idParam = some (projects, ⟨StatusOK, Payload.project p⟩)) ∧
    (getProject projects idParam =
        some (projects, ⟨404, Payload.error "Project not found"⟩) ↔
      ∀ p ∈ projects, p.ID ≠ getIDParam idParam) := by
  have hpos := reachable_ids_pos projects hreach
  have found : ∀ front p back, projects = front ++ p :: back → p.ID = getIDParam idParam →
      (∀ q ∈ front, q.ID ≠ getIDParam idParam) →
      getProject projects idParam = some (projects, ⟨StatusOK, Payload.project p⟩) := by
    intro front p back e hp hf
    have hne : p.ID ≠ 0 := by
      have := hpos p (by rw [e]; exact List.mem_append_right _ (List.mem_cons_self _ _))
      omega
    subst e
    simp only [getProject, findProjectByID_split front p back _ hp hf, if_neg hne]
  constructor
  · intro h
    rcases projects_split_or_missing projects (getIDParam idParam) with
      hm | ⟨front, p, back, e, hp, hf⟩
    · obtain ⟨p, hp, hid⟩ := h
      exact absurd hid (hm p hp)
    · exact ⟨front, p, back, e, hp, hf, found front p back e hp hf⟩
  · constructor
    · intro h
      rcases projects_split_or_missing projects (getIDParam idParam) with
        hm | ⟨front, p, back, e, hp, hf⟩
      · exact hm
      · rw [found front p back e hp hf] at h
        simp only [Option.some.injEq, Prod.mk.injEq, Response.mk.injEq] at h
        exact absurd h.2.1 (by decide)
    · intro hm
      simp only [getProject, findProjectByID_missing projects _ hm, Project.zero, if_true]
      rfl

/-- C9 at a concrete reachable store: two projects created, the second looked up. -/
theorem getProject_first_match_or_not_found_witness :
    Reachable [⟨1, "a", []⟩, ⟨2, "b", []⟩] ∧
    ((∃ p ∈ ([⟨1, "a", []⟩, ⟨2, "b", []⟩] : List Project), p.ID = getIDParam (some 2)) →
      ∃ front p back,
        ([⟨1, "a", []⟩, ⟨2, "b", []⟩] : List Project) = front ++ p :: back ∧
        p.ID = getIDParam (some 2) ∧
        (∀ q ∈ front, q.ID ≠ getIDParam (some 2)) ∧
        getProject [⟨1, "a", []⟩, ⟨2, "b", []⟩] (some 2) =
          some ([⟨1, "a", []⟩, ⟨2, "b", []⟩], ⟨StatusOK, Payload.project p⟩)) ∧
    (getProject [⟨1, "a", []⟩, ⟨2, "b", []⟩] (some 2) =
        some ([⟨1, "a", []⟩, ⟨2, "b", []⟩], ⟨404, Payload.error "Project not found"⟩) ↔
      ∀ p ∈ ([⟨1, "a", []⟩, ⟨2, "b", []⟩] : List Project), p.ID ≠ getIDParam (some 2)) :=
  have hreach : Reachable [⟨1, "a", []⟩, ⟨2, "b", []⟩] :=
    ⟨[Request.createProject (Except.ok ⟨0, "a", []⟩),
      Request.createProject (Except.ok ⟨0, "b", []⟩)], rfl⟩
  ⟨hreach, getProject_first_match_or_not_found _ hreach (some 2)⟩

/-- C10: in every store reachable from the empty store, whatever id fields the
bodies carried and whatever id parameters were used, every project has a
strictly positive (so non-zero) identifier. -/
theorem reachable_project_ids_positive (projects : List Project)
    (hreach : Reachable projects) :
    ∀ p ∈ projects, 0 < p.ID ∧ p.ID ≠ 0 := by
  intro p hp
  have := reachable_ids_pos projects hreach p hp
  exact ⟨this, by omega⟩

/-- C10 at a concrete reachable store: bodies carrying id 0 and -5, and an
update through the id parameter 1. -/
theorem reachable_project_ids_positive_witness :
    Reachable [⟨1, "z", []⟩, ⟨2, "b", []⟩] ∧
    ∀ p ∈ ([⟨1, "z", []⟩, ⟨2, "b", []⟩] : List Project), 0 < p.ID ∧ p.ID ≠ 0 :=
  have hreach : Reachable [⟨1, "z", []⟩, ⟨2, "b", []⟩] :=
    ⟨[Request.createProject (Except.ok ⟨0, "a", []⟩),
      Request.createProject (Except.ok ⟨-5, "b", []⟩),
      Request.updateProject (some 1) (Except.ok ⟨0, "z", []⟩)], rfl⟩
  ⟨hreach, reachable_project_ids_positive _ hreach⟩

/-! ## Responses, bounds and positions -/

/-- A request that returns either leaves the store as it was, or answers 200,
201 or 204; in the latter case it is a `deleteProject`, or it appends one project
with a generated identifier, or it keeps the sequence of project identifiers. -/
theorem handle_effect (projects : List Project) (req : Request) (projects1 : List Project)
    (resp : Response) (h : handle projects req = some (projects1, resp)) :
    projects1 = projects ∨
    ((resp.status = StatusOK ∨ resp.status = StatusCreated ∨ resp.status = StatusNoContent) ∧
      ((∃ id, req = Request.deleteProject id) ∨
       (∃ bound : Project,
          projects1 = projects ++ [⟨generateID projects, bound.Title, bound.Tasks⟩]) ∨
       projects1.map Project.ID = projects.map Project.ID)) := by
  cases req with
  | getProjects =>
    simp only [handle, getProjects, Option.some.injEq, Prod.mk.injEq] at h
    exact Or.inl h.1.symm
  | getProject id =>
    simp only [handle, getProject] at h
    split at h <;>
      (simp only [Option.some.injEq, Prod.mk.injEq] at h; exact Or.inl h.1.symm)
  | createProject body =>
    cases body with
    | error err =>
      simp only [handle, createProject, Option.some.injEq, Prod.mk.injEq] at h
      exact Or.inl h.1.symm
    | ok bound =>
      simp only [handle, createProject, Option.some.injEq, Prod.mk.injEq] at h
      refine Or.inr ⟨Or.inr (Or.inl ?_), Or.inr (Or.inl ⟨bound, h.1.symm⟩)⟩
      rw [← h.2]
  | updateProject id body =>
    rcases projects_split_or_missing projects (getIDParam id) with hm | ⟨front, p, back, e, hp, hf⟩
    · simp only [handle, updateProject_missing projects id body hm, Option.some.injEq,
        Prod.mk.injEq] at h
      exact Or.inl h.1.symm
    · subst e
      cases body with
      | error err =>
        simp only [handle, updateProject_split_error front p back id err hp hf,
          Option.some.injEq, Prod.mk.injEq] at h
        exact Or.inl h.1.symm
      | ok bound =>
        simp only [handle, updateProject_split front p back id bound hp hf,
          Option.some.injEq, Prod.mk.injEq] at h
        refine Or.inr ⟨Or.inl ?_, Or.inr (Or.inr ?_)⟩
        · rw [← h.2]
        · rw [← h.1]
          simp [hp]
  | deleteProject id =>
    rcases projects_split_or_missing projects (getIDParam id) with hm | ⟨front, p, back, e, hp, hf⟩
    · simp only [handle, deleteProject_missing projects id hm, Option.some.injEq,
        Prod.mk.injEq] at h
      exact Or.inl h.1.symm
    · subst e
      simp only [handle, deleteProject_split front p back id hp hf, Option.some.injEq,
        Prod.mk.injEq] at h
      refine Or.inr ⟨Or.inr (Or.inr ?_), Or.inl ⟨id, rfl⟩⟩
      rw [← h.2]
  | createTask id body =>
    rcases projects_split_or_missing projects (getIDParam id) with hm | ⟨front, p, back, e, hp, hf⟩
    · simp only [handle, createTask_missing projects id body hm, Option.some.injEq,
        Prod.mk.injEq] at h
      exact Or.inl h.1.symm
    · subst e
      cases body with
      | error err =>
        simp only [handle, createTask_split_error front p back id err hp hf,
          Option.some.injEq, Prod.mk.injEq] at h
        exact Or.inl h.1.symm
      | ok bound =>
        simp only [handle, createTask_split front p back id bound hp hf,
          Option.some.injEq, Prod.mk.injEq] at h
        refine Or.inr ⟨Or.inr (Or.inl ?_), Or.inr (Or.inr ?_)⟩
        · rw [← h.2]
        · rw [← h.1]
          simp
  | updateTask id taskID body =>
    rcases projects_split_or_missing projects (getIDParam id) with hm | ⟨front, p, back, e, hp, hf⟩
    · simp only [handle, updateTask_missing projects id taskID body hm, Option.some.injEq,
        Prod.mk.injEq] at h
      exact Or.inl h.1.symm
    · subst e
      rcases tasks_split_or_missing p.Tasks (getTaskIDParam taskID) with
        htm | ⟨tfront, t, tback, te, ht, htf⟩
      · simp only [handle, updateTask_task_missing front p back id taskID body hp hf htm,
          Option.some.injEq, Prod.mk.injEq] at h
        exact Or.inl h.1.symm
      · cases body with
        | error err =>
          simp only [handle,
            updateTask_split_error front p back tfront t tback id taskID err hp hf te ht htf,
            Option.some.injEq, Prod.mk.injEq] at h
          exact Or.inl h.1.symm
        | ok bound =>
          simp only [handle,
            updateTask_split front p back tfront t tback id taskID bound hp hf te ht htf,
            Option.some.injEq, Prod.mk.injEq] at h
          refine Or.inr ⟨Or.inl ?_, Or.inr (Or.inr ?_)⟩
          · rw [← h.2]
          · rw [← h.1]
            simp
  | deleteTask id taskID =>
    rcases projects_split_or_missing projects (getIDParam id) with hm | ⟨front, p, back, e, hp, hf⟩
    · simp only [handle, deleteTask_missing projects id taskID hm, Option.some.injEq,
        Prod.mk.injEq] at h
      exact Or.inl h.1.symm
    · subst e
      rcases tasks_split_or_missing p.Tasks (getTaskIDParam taskID) with
        htm | ⟨tfront, t, tback, te, ht, htf⟩
      · simp only [handle, deleteTask_task_missing front p back id taskID hp hf htm,
          Option.some.injEq, Prod.mk.injEq] at h
        exact Or.inl h.1.symm
      · simp only [handle,
          deleteTask_split front p back tfront t tback id taskID hp hf te ht htf,
          Option.some.injEq, Prod.mk.injEq] at h
        refine Or.inr ⟨Or.inr (Or.inr ?_), Or.inr (Or.inr ?_)⟩
        · rw [← h.2]
        · rw [← h.1]
          simp

/-- The project scan returns -1 or a position of the sequence. -/
theorem findProjectIndexByID_bounds (projects : List Project) (id : Int) :
    findProjectIndexByID projects id = -1 ∨
    (0 ≤ findProjectIndexByID projects id ∧
      findProjectIndexByID projects id < (projects.length : Int)) := by
  rcases projects_split_or_missing projects id with hm | ⟨front, p, back, e, hp, hf⟩
  · exact Or.inl (findProjectIndexByID_missing projects id hm)
  · right
    subst e
    rw [findProjectIndexByID_split front p back id hp hf]
    simp only [List.length_append, List.length_cons]
    omega

/-- The task scan returns -1 or a position of the sequence. -/
theorem findTaskIndexFrom_bounds (tasks : List Task) (taskID : Int) :
    findTaskIndexFrom 0 tasks taskID = -1 ∨
    (0 ≤ findTaskIndexFrom 0 tasks taskID ∧
      findTaskIndexFrom 0 tasks taskID < (tasks.length : Int)) := by
  rcases tasks_split_or_missing tasks taskID with hm | ⟨front, t, back, e, ht, hf⟩
  · exact Or.inl (findTaskIndexFrom_missing tasks taskID 0 hm)
  · right
    subst e
    rw [findTaskIndexFrom_split front t back taskID 0 ht hf]
    simp only [List.length_append, List.length_cons]
    omega

/-- In a sequence whose identifiers count up from `k + 1`, looking up the
identifier `k + i + 1` returns the project at position `i`. -/
theorem findProjectByID_counting (projects : List Project) (k : Nat)
    (h : projects.map Project.ID = (List.range projects.length).map (fun j => ((k + j : Nat) : Int) + 1))
    (i : Nat) (hi : i < projects.length) :
    findProjectByID projects (((k + i : Nat) : Int) + 1) = projects.get ⟨i, hi⟩ := by
  induction projects generalizing k i with
  | nil => exact absurd hi (Nat.not_lt_zero _)
  | cons p rest ih =>
    have hlen : (p :: rest).length = rest.length + 1 := rfl
    rw [hlen, List.range_succ_eq_map] at h
    simp only [List.map_cons, List.map_map, List.cons.injEq] at h
    obtain ⟨hp, hrest⟩ := h
    cases i with
    | zero =>
      have : p.ID = ((k + 0 : Nat) : Int) + 1 := by rw [hp]
      simp only [findProjectByID, if_pos this]
      rfl
    | succ i =>
      have hne : p.ID ≠ ((k + (i + 1) : Nat) : Int) + 1 := by
        rw [hp]; push_cast; omega
      simp only [findProjectByID, if_neg hne]
      have hrest1 : rest.map Project.ID =
          (List.range rest.length).map (fun j => (((k + 1) + j : Nat) : Int) + 1) := by
        rw [hrest]
        apply List.map_congr_left
        intro j _
        simp only [Function.comp, Nat.succ_eq_add_one]
        push_cast
        omega
      have e : ((k + (i + 1) : Nat) : Int) + 1 = (((k + 1) + i : Nat) : Int) + 1 := by
        push_cast; omega
      rw [e, ih (k + 1) hrest1 i (Nat.lt_of_succ_lt_succ hi)]
      rfl

/-! ## Claims about scenarios, generated identifiers and task creation -/

/-- C11: starting from the empty store, for all bound project bodies `a` and `b`:
the two `createProject` calls return identifiers 1 and 2 (distinct), `getProject`
on each identifier returns the corresponding project, and after `deleteProject 1`
the project list is exactly the second project, with identifier 2 and the title
and tasks of `b`. -/
theorem scenario_two_projects_delete_first (a b : Project) :
    createProject [] (Except.ok a) =
      some ([⟨1, a.Title, a.Tasks⟩], ⟨StatusCreated, Payload.project ⟨1, a.Title, a.Tasks⟩⟩) ∧
    createProject [⟨1, a.Title, a.Tasks⟩] (Except.ok b) =
      some ([⟨1, a.Title, a.Tasks⟩, ⟨2, b.Title, b.Tasks⟩],
        ⟨StatusCreated, Payload.project ⟨2, b.Title, b.Tasks⟩⟩) ∧
    (⟨1, a.Title, a.Tasks⟩ : Project).ID ≠ (⟨2, b.Title, b.Tasks⟩ : Project).ID ∧
    getProject [⟨1, a.Title, a.Tasks⟩, ⟨2, b.Title, b.Tasks⟩] (some 1) =
      some ([⟨1, a.Title, a.Tasks⟩, ⟨2, b.Title, b.Tasks⟩],
        ⟨StatusOK, Payload.project ⟨1, a.Title, a.Tasks⟩⟩) ∧
    getProject [⟨1, a.Title, a.Tasks⟩, ⟨2, b.Title, b.Tasks⟩] (some 2) =
      some ([⟨1, a.Title, a.Tasks⟩, ⟨2, b.Title, b.Tasks⟩],
        ⟨StatusOK, Payload.project ⟨2, b.Title, b.Tasks⟩⟩) ∧
    deleteProject [⟨1, a.Title, a.Tasks⟩, ⟨2, b.Title, b.Tasks⟩] (some 1) =
      some ([⟨2, b.Title, b.Tasks⟩], ⟨StatusNoContent, Payload.null⟩) ∧
    getProjects [⟨2, b.Title, b.Tasks⟩] =
      some ([⟨2, b.Title, b.Tasks⟩], ⟨StatusOK, Payload.projects [⟨2, b.Title, b.Tasks⟩]⟩) :=
  ⟨rfl, rfl, by show (1 : Int) ≠ 2; decide, rfl, rfl, rfl, rfl⟩

/-- C12 (counterexample): a project created with two tasks of identifier 7 is a
reachable store; `deleteTask 1 7` succeeds on it, and the identical second
`deleteTask 1 7` succeeds again (204, not 404 "Task not found") and removes the
other task, so the store changes. -/
theorem deleteTask_twice_succeeds_on_repeated_task_id :
    run [] [Request.createProject
        (Except.ok ⟨0, "P", [⟨7, "a", "todo"⟩, ⟨7, "b", "todo"⟩]⟩)] =
      some [⟨1, "P", [⟨7, "a", "todo"⟩, ⟨7, "b", "todo"⟩]⟩] ∧
    deleteTask [⟨1, "P", [⟨7, "a", "todo"⟩, ⟨7, "b", "todo"⟩]⟩] (some 1) (some 7) =
      some ([⟨1, "P", [⟨7, "b", "todo"⟩]⟩], ⟨StatusNoContent, Payload.null⟩) ∧
    deleteTask [⟨1, "P", [⟨7, "b", "todo"⟩]⟩] (some 1) (some 7) =
      some ([⟨1, "P", []⟩], ⟨StatusNoContent, Payload.null⟩) ∧
    deleteTask [⟨1, "P", [⟨7, "b", "todo"⟩]⟩] (some 1) (some 7) ≠
      some ([⟨1, "P", [⟨7, "b", "todo"⟩]⟩], ⟨404, Payload.error "Task not found"⟩) :=
  ⟨rfl, rfl, rfl, by decide⟩

/-- C12 (amended): for every store, project identifier and task identifier for
which `deleteTask` succeeds (204), if the target project (the first one carrying
the project identifier) held at most one task carrying the task identifier, then
the identical second `deleteTask` made directly afterwards answers 404
"Task not found" and returns the store as it was. -/
theorem deleteTask_again_task_not_found (projects projects1 : List Project)
    (idParam taskIDParam : Option Int)
    (hdel : deleteTask projects idParam taskIDParam =
      some (projects1, ⟨StatusNoContent, Payload.null⟩))
    (hone : ((findProjectByID projects (getIDParam idParam)).Tasks.map Task.ID).count
      (getTaskIDParam taskIDParam) ≤ 1) :
    deleteTask projects1 idParam taskIDParam =
      some (projects1, ⟨404, Payload.error "Task not found"⟩) := by
  rcases projects_split_or_missing projects (getIDParam idParam) with
    hm | ⟨front, p, back, e, hp, hf⟩
  · rw [deleteTask_missing projects idParam taskIDParam hm] at hdel
    simp only [Option.some.injEq, Prod.mk.injEq, projectNotFound, Response.mk.injEq] at hdel
    exact absurd hdel.2.1 (by decide)
  · subst e
    rw [findProjectByID_split front p back _ hp hf] at hone
    rcases tasks_split_or_missing p.Tasks (getTaskIDParam taskIDParam) with
      htm | ⟨tfront, t, tback, te, ht, htf⟩
    · rw [deleteTask_task_missing front p back idParam taskIDParam hp hf htm] at hdel
      simp only [Option.some.injEq, Prod.mk.injEq, taskNotFound, Response.mk.injEq] at hdel
      exact absurd hdel.2.1 (by decide)
    · rw [deleteTask_split front p back tfront t tback idParam taskIDParam hp hf te ht htf]
        at hdel
      simp only [Option.some.injEq, Prod.mk.injEq] at hdel
      rw [← hdel.1]
      rw [te] at hone
      simp only [List.map_append, List.map_cons, List.count_append, List.count_cons, ht,
        beq_self_eq_true, if_true] at hone
      have hback : (tback.map Task.ID).count (getTaskIDParam taskIDParam) = 0 := by omega
      have hnone : ∀ q ∈ tfront ++ tback, q.ID ≠ getTaskIDParam taskIDParam := by
        intro q hq
        rcases List.mem_append.mp hq with hq | hq
        · exact htf q hq
        · intro hqid
          have hmem : getTaskIDParam taskIDParam ∈ tback.map Task.ID :=
            List.mem_map.mpr ⟨q, hq, hqid⟩
          exact absurd hback (Nat.ne_of_gt (List.count_pos_iff.mpr hmem))
      exact deleteTask_task_missing front ⟨p.ID, p.Title, tfront ++ tback⟩ back idParam
        taskIDParam hp hf hnone

/-- C12 (amended), at a concrete input: project 1 with tasks 5 and 6, task 5
deleted twice. -/
theorem deleteTask_again_task_not_found_witness :
    deleteTask [⟨1, "P", [⟨5, "a", "todo"⟩, ⟨6, "b", "todo"⟩]⟩] (some 1) (some 5) =
      some ([⟨1, "P", [⟨6, "b", "todo"⟩]⟩], ⟨StatusNoContent, Payload.null⟩) ∧
    ((findProjectByID [⟨1, "P", [⟨5, "a", "todo"⟩, ⟨6, "b", "todo"⟩]⟩]
      (getIDParam (some 1))).Tasks.map Task.ID).count (getTaskIDParam (some 5)) ≤ 1 ∧
    deleteTask [⟨1, "P", [⟨6, "b", "todo"⟩]⟩] (some 1) (some 5) =
      some ([⟨1, "P", [⟨6, "b", "todo"⟩]⟩], ⟨404, Payload.error "Task not found"⟩) :=
  ⟨rfl, by decide,
    deleteTask_again_task_not_found [⟨1, "P", [⟨5, "a", "todo"⟩, ⟨6, "b", "todo"⟩]⟩]
      [⟨1, "P", [⟨6, "b", "todo"⟩]⟩] (some 1) (some 5) rfl (by decide)⟩

/-- C13: for every store holding n projects, `createProject` with a bound body
answers 201 with a project of identifier n + 1 and appends exactly that project
(the body's id field is dropped); `createTask` with a bound body on a project
that exists answers 201 with a task of identifier n + 1 and appends exactly that
task to the first project carrying the identifier, whatever the body's id field
and however many tasks the target project holds. -/
theorem generated_ids_are_project_count_plus_one (projects : List Project) :
    (∀ bound : Project, createProject projects (Except.ok bound) =
      some (projects ++ [⟨(projects.length : Int) + 1, bound.Title, bound.Tasks⟩],
        ⟨StatusCreated,
          Payload.project ⟨(projects.length : Int) + 1, bound.Title, bound.Tasks⟩⟩)) ∧
    (∀ (idParam : Option Int) (bound : Task),
      (∃ p ∈ projects, p.ID = getIDParam idParam) →
      ∃ front p back,
        projects = front ++ p :: back ∧ p.ID = getIDParam idParam ∧
        (∀ q ∈ front, q.ID ≠ getIDParam idParam) ∧
        createTask projects idParam (Except.ok bound) =
          some (front ++ ⟨p.ID, p.Title, p.Tasks ++
              [⟨(projects.length : Int) + 1, bound.Title, bound.Status⟩]⟩ :: back,
            ⟨StatusCreated,
              Payload.task ⟨(projects.length : Int) + 1, bound.Title, bound.Status⟩⟩)) := by
  constructor
  · intro bound
    rfl
  · intro idParam bound h
    rcases projects_split_or_missing projects (getIDParam idParam) with
      hm | ⟨front, p, back, e, hp, hf⟩
    · obtain ⟨p, hp, hid⟩ := h
      exact absurd hid (hm p hp)
    · subst e
      exact ⟨front, p, back, rfl, hp, hf, createTask_split front p back idParam bound hp hf⟩

/-- C13 at a concrete input: one project already holding two tasks, bodies
carrying the id fields 40 and 50; the stored and the returned task both get
identifier 2. -/
theorem generated_ids_are_project_count_plus_one_witness :
    createProject [⟨1, "a", [⟨2, "x", "todo"⟩, ⟨2, "y", "todo"⟩]⟩]
        (Except.ok ⟨40, "b", []⟩) =
      some ([⟨1, "a", [⟨2, "x", "todo"⟩, ⟨2, "y", "todo"⟩]⟩, ⟨2, "b", []⟩],
        ⟨StatusCreated, Payload.project ⟨2, "b", []⟩⟩) ∧
    createTask [⟨1, "a", [⟨2, "x", "todo"⟩, ⟨2, "y", "todo"⟩]⟩] (some 1)
        (Except.ok ⟨50, "z", "done"⟩) =
      some ([⟨1, "a", [⟨2, "x", "todo"⟩, ⟨2, "y", "todo"⟩, ⟨2, "z", "done"⟩]⟩],
        ⟨StatusCreated, Payload.task ⟨2, "z", "done"⟩⟩) ∧
    ∃ front p back,
      ([⟨1, "a", [⟨2, "x", "todo"⟩, ⟨2, "y", "todo"⟩]⟩] : List Project) =
        front ++ p :: back ∧
      p.ID = getIDParam (some 1) ∧
      (∀ q ∈ front, q.ID ≠ getIDParam (some 1)) ∧
      createTask [⟨1, "a", [⟨2, "x", "todo"⟩, ⟨2, "y", "todo"⟩]⟩] (some 1)
          (Except.ok ⟨50, "z", "done"⟩) =
        some (front ++ ⟨p.ID, p.Title, p.Tasks ++ [⟨2, "z", "done"⟩]⟩ :: back,
          ⟨StatusCreated, Payload.task ⟨2, "z", "done"⟩⟩) :=
  ⟨(generated_ids_are_project_count_plus_one
      [⟨1, "a", [⟨2, "x", "todo"⟩, ⟨2, "y", "todo"⟩]⟩]).1 ⟨40, "b", []⟩,
    rfl,
    (generated_ids_are_project_count_plus_one
      [⟨1, "a", [⟨2, "x", "todo"⟩, ⟨2, "y", "todo"⟩]⟩]).2 (some 1) ⟨50, "z", "done"⟩
      ⟨⟨1, "a", [⟨2, "x", "todo"⟩, ⟨2, "y", "todo"⟩]⟩, List.mem_singleton.mpr rfl, rfl⟩⟩

/-- C14: when some project carries the identifier of the request, `createTask`
with a bound body answers 201 with a task carrying the body's title and status,
and the store `front ++ p :: back`, split at the first project carrying the
identifier, becomes `front ++ p1 :: back` where `p1` has the identifier and title
of `p` and the tasks of `p` followed by the returned task; the number of projects
is unchanged. -/
theorem createTask_appends_to_first_match (projects : List Project) (idParam : Option Int)
    (bound : Task) (h : ∃ p ∈ projects, p.ID = getIDParam idParam) :
    ∃ front p back newTask projects1,
      projects = front ++ p :: back ∧ p.ID = getIDParam idParam ∧
      (∀ q ∈ front, q.ID ≠ getIDParam idParam) ∧
      createTask projects idParam (Except.ok bound) =
        some (projects1, ⟨StatusCreated, Payload.task newTask⟩) ∧
      newTask.Title = bound.Title ∧ newTask.Status = bound.Status ∧
      projects1 = front ++ ⟨p.ID, p.Title, p.Tasks ++ [newTask]⟩ :: back ∧
      projects1.length = projects.length := by
  rcases projects_split_or_missing projects (getIDParam idParam) with
    hm | ⟨front, p, back, e, hp, hf⟩
  · obtain ⟨p, hp, hid⟩ := h
    exact absurd hid (hm p hp)
  · subst e
    refine ⟨front, p, back, _, _, rfl, hp, hf,
      createTask_split front p back idParam bound hp hf, rfl, rfl, rfl, ?_⟩
    simp

/-- C14 at a concrete input: a task added to project 2 of three, which already
holds one task. -/
theorem createTask_appends_to_first_match_witness :
    (∃ p ∈ ([⟨1, "a", []⟩, ⟨2, "b", [⟨9, "x", "todo"⟩]⟩, ⟨3, "c", []⟩] : List Project),
      p.ID = getIDParam (some 2)) ∧
    ∃ front p back newTask projects1,
      ([⟨1, "a", []⟩, ⟨2, "b", [⟨9, "x", "todo"⟩]⟩, ⟨3, "c", []⟩] : List Project) =
        front ++ p :: back ∧
      p.ID = getIDParam (some 2) ∧
      (∀ q ∈ front, q.ID ≠ getIDParam (some 2)) ∧
      createTask [⟨1, "a", []⟩, ⟨2, "b", [⟨9, "x", "todo"⟩]⟩, ⟨3, "c", []⟩] (some 2)
          (Except.ok ⟨0, "y", "doing"⟩) =
        some (projects1, ⟨StatusCreated, Payload.task newTask⟩) ∧
      newTask.Title = "y" ∧ newTask.Status = "doing" ∧
      projects1 = front ++ ⟨p.ID, p.Title, p.Tasks ++ [newTask]⟩ :: back ∧
      projects1.length =
        ([⟨1, "a", []⟩, ⟨2, "b", [⟨9, "x", "todo"⟩]⟩, ⟨3, "c", []⟩] : List Project).length :=
  have h : ∃ p ∈ ([⟨1, "a", []⟩, ⟨2, "b", [⟨9, "x", "todo"⟩]⟩, ⟨3, "c", []⟩] : List Project),
      p.ID = getIDParam (some 2) :=
    ⟨⟨2, "b", [⟨9, "x", "todo"⟩]⟩, List.mem_cons_of_mem _ (List.mem_cons_self _ _), rfl⟩
  ⟨h, createTask_appends_to_first_match _ (some 2) ⟨0, "y", "doing"⟩ h⟩

/-! ## Claims about task replacement and deletion, failures, bounds and positions -/

/-- C15: when the target project (the first one carrying the project identifier)
holds a task carrying the task identifier, the store splits as
`front ++ p :: back` and the tasks of `p` as `tfront ++ t :: tback` at the first
matches; `updateTask` with a bound body answers 200 and puts
{task identifier, body title, body status} in the place of `t`, `deleteTask`
answers 204 and leaves `tfront ++ tback`; `front`, `back`, `tfront`, `tback` and
the identifier and title of `p` are untouched in both cases. -/
theorem updateTask_deleteTask_touch_only_first_match (projects : List Project)
    (idParam taskIDParam : Option Int) (bound : Task)
    (h : ∃ t ∈ (findProjectByID projects (getIDParam idParam)).Tasks,
      t.ID = getTaskIDParam taskIDParam)
    (hproject : ∃ p ∈ projects, p.ID = getIDParam idParam) :
    ∃ front p back tfront t tback,
      projects = front ++ p :: back ∧ p.ID = getIDParam idParam ∧
      (∀ q ∈ front, q.ID ≠ getIDParam idParam) ∧
      p.Tasks = tfront ++ t :: tback ∧ t.ID = getTaskIDParam taskIDParam ∧
      (∀ q ∈ tfront, q.ID ≠ getTaskIDParam taskIDParam) ∧
      updateTask projects idParam taskIDParam (Except.ok bound) =
        some (front ++ ⟨p.ID, p.Title,
            tfront ++ ⟨getTaskIDParam taskIDParam, bound.Title, bound.Status⟩ :: tback⟩ :: back,
          ⟨StatusOK,
            Payload.task ⟨getTaskIDParam taskIDParam, bound.Title, bound.Status⟩⟩) ∧
      (tfront ++ ⟨getTaskIDParam taskIDParam, bound.Title, bound.Status⟩ :: tback).length =
        p.Tasks.length ∧
      deleteTask projects idParam taskIDParam =
        some (front ++ ⟨p.ID, p.Title, tfront ++ tback⟩ :: back,
          ⟨StatusNoContent, Payload.null⟩) := by
  rcases projects_split_or_missing projects (getIDParam idParam) with
    hm | ⟨front, p, back, e, hp, hf⟩
  · obtain ⟨p, hp, hid⟩ := hproject
    exact absurd hid (hm p hp)
  · subst e
    rw [findProjectByID_split front p back _ hp hf] at h
    rcases tasks_split_or_missing p.Tasks (getTaskIDParam taskIDParam) with
      htm | ⟨tfront, t, tback, te, ht, htf⟩
    · obtain ⟨t, ht, hid⟩ := h
      exact absurd hid (htm t ht)
    · refine ⟨front, p, back, tfront, t, tback, rfl, hp, hf, te, ht, htf,
        updateTask_split front p back tfront t tback idParam taskIDParam bound hp hf te ht htf,
        ?_, deleteTask_split front p back tfront t tback idParam taskIDParam hp hf te ht htf⟩
      rw [te]
      simp

/-- C15 at a concrete input: task 6 of project 2, which holds tasks 5, 6, 7. -/
theorem updateTask_deleteTask_touch_only_first_match_witness :
    updateTask [⟨1, "a", []⟩,
        ⟨2, "b", [⟨5, "x", "todo"⟩, ⟨6, "y", "todo"⟩, ⟨7, "z", "todo"⟩]⟩] (some 2) (some 6)
        (Except.ok ⟨0, "Y", "done"⟩) =
      some ([⟨1, "a", []⟩,
          ⟨2, "b", [⟨5, "x", "todo"⟩, ⟨6, "Y", "done"⟩, ⟨7, "z", "todo"⟩]⟩],
        ⟨StatusOK, Payload.task ⟨6, "Y", "done"⟩⟩) ∧
    deleteTask [⟨1, "a", []⟩,
        ⟨2, "b", [⟨5, "x", "todo"⟩, ⟨6, "y", "todo"⟩, ⟨7, "z", "todo"⟩]⟩] (some 2) (some 6) =
      some ([⟨1, "a", []⟩, ⟨2, "b", [⟨5, "x", "todo"⟩, ⟨7, "z", "todo"⟩]⟩],
        ⟨StatusNoContent, Payload.null⟩) ∧
    ∃ front p back tfront t tback,
      ([⟨1, "a", []⟩,
        ⟨2, "b", [⟨5, "x", "todo"⟩, ⟨6, "y", "todo"⟩, ⟨7, "z", "todo"⟩]⟩] : List Project) =
        front ++ p :: back ∧
      p.ID = getIDParam (some 2) ∧
      (∀ q ∈ front, q.ID ≠ getIDParam (some 2)) ∧
      p.Tasks = tfront ++ t :: tback ∧ t.ID = getTaskIDParam (some 6) ∧
      (∀ q ∈ tfront, q.ID ≠ getTaskIDParam (some 6)) ∧
      updateTask [⟨1, "a", []⟩,
          ⟨2, "b", [⟨5, "x", "todo"⟩, ⟨6, "y", "todo"⟩, ⟨7, "z", "todo"⟩]⟩] (some 2) (some 6)
          (Except.ok ⟨0, "Y", "done"⟩) =
        some (front ++ ⟨p.ID, p.Title,
            tfront ++ ⟨getTaskIDParam (some 6), "Y", "done"⟩ :: tback⟩ :: back,
          ⟨StatusOK, Payload.task ⟨getTaskIDParam (some 6), "Y", "done"⟩⟩) ∧
      (tfront ++ ⟨getTaskIDParam (some 6), "Y", "done"⟩ :: tback).length = p.Tasks.length ∧
      deleteTask [⟨1, "a", []⟩,
          ⟨2, "b", [⟨5, "x", "todo"⟩, ⟨6, "y", "todo"⟩, ⟨7, "z", "todo"⟩]⟩] (some 2) (some 6) =
        some (front ++ ⟨p.ID, p.Title, tfront ++ tback⟩ :: back,
          ⟨StatusNoContent, Payload.null⟩) :=
  ⟨rfl, rfl,
    updateTask_deleteTask_touch_only_first_match
      [⟨1, "a", []⟩, ⟨2, "b", [⟨5, "x", "todo"⟩, ⟨6, "y", "todo"⟩, ⟨7, "z", "todo"⟩]⟩]
      (some 2) (some 6) ⟨0, "Y", "done"⟩
      ⟨⟨6, "y", "todo"⟩, List.mem_cons_of_mem _ (List.mem_cons_self _ _), rfl⟩
      ⟨⟨2, "b", [⟨5, "x", "todo"⟩, ⟨6, "y", "todo"⟩, ⟨7, "z", "todo"⟩]⟩,
        List.mem_cons_of_mem _ (List.mem_cons_self _ _), rfl⟩⟩

/-- C16: for every store and every request, a handler that answers 404 or 400
returns the store as it was; in particular `updateProject` on an existing project
and `updateTask` on an existing task of an existing project, with a body that
fails to bind, answer 400 and return the store as it was. -/
theorem error_answers_leave_store_unchanged (projects : List Project) :
    (∀ req projects1 resp, handle projects req = some (projects1, resp) →
      resp.status = StatusNotFound ∨ resp.status = StatusBadRequest →
      projects1 = projects) ∧
    (∀ idParam err, (∃ p ∈ projects, p.ID = getIDParam idParam) →
      updateProject projects idParam (Except.error err) =
        some (projects, ⟨400, Payload.error err⟩)) ∧
    (∀ idParam taskIDParam err, (∃ p ∈ projects, p.ID = getIDParam idParam) →
      (∃ t ∈ (findProjectByID projects (getIDParam idParam)).Tasks,
        t.ID = getTaskIDParam taskIDParam) →
      updateTask projects idParam taskIDParam (Except.error err) =
        some (projects, ⟨400, Payload.error err⟩)) := by
  refine ⟨?_, ?_, ?_⟩
  · intro req projects1 resp h herr
    rcases handle_effect projects req projects1 resp h with e | ⟨hst, _⟩
    · exact e
    · exfalso
      rcases herr with herr | herr <;> rcases hst with hst | hst | hst <;>
        (rw [herr] at hst; revert hst; decide)
  · intro idParam err hproject
    rcases projects_split_or_missing projects (getIDParam idParam) with
      hm | ⟨front, p, back, e, hp, hf⟩
    · obtain ⟨p, hp, hid⟩ := hproject
      exact absurd hid (hm p hp)
    · subst e
      exact updateProject_split_error front p back idParam err hp hf
  · intro idParam taskIDParam err hproject htask
    rcases projects_split_or_missing projects (getIDParam idParam) with
      hm | ⟨front, p, back, e, hp, hf⟩
    · obtain ⟨p, hp, hid⟩ := hproject
      exact absurd hid (hm p hp)
    · subst e
      rw [findProjectByID_split front p back _ hp hf] at htask
      rcases tasks_split_or_missing p.Tasks (getTaskIDParam taskIDParam) with
        htm | ⟨tfront, t, tback, te, ht, htf⟩
      · obtain ⟨t, ht, hid⟩ := htask
        exact absurd hid (htm t ht)
      · exact updateTask_split_error front p back tfront t tback idParam taskIDParam err
          hp hf te ht htf

/-- C16 at concrete inputs: a `deleteTask` for an absent task (404), and an
`updateProject` and an `updateTask` on existing targets with a body that fails
to bind (400). -/
theorem error_answers_leave_store_unchanged_witness :
    handle [⟨1, "a", [⟨5, "x", "todo"⟩]⟩] (Request.deleteTask (some 1) (some 8)) =
      some ([⟨1, "a", [⟨5, "x", "todo"⟩]⟩], taskNotFound) ∧
    ([⟨1, "a", [⟨5, "x", "todo"⟩]⟩] : List Project) = [⟨1, "a", [⟨5, "x", "todo"⟩]⟩] ∧
    updateProject [⟨1, "a", [⟨5, "x", "todo"⟩]⟩] (some 1) (Except.error "EOF") =
      some ([⟨1, "a", [⟨5, "x", "todo"⟩]⟩], ⟨400, Payload.error "EOF"⟩) ∧
    updateTask [⟨1, "a", [⟨5, "x", "todo"⟩]⟩] (some 1) (some 5) (Except.error "EOF") =
      some ([⟨1, "a", [⟨5, "x", "todo"⟩]⟩], ⟨400, Payload.error "EOF"⟩) :=
  ⟨rfl,
    (error_answers_leave_store_unchanged [⟨1, "a", [⟨5, "x", "todo"⟩]⟩]).1
      (Request.deleteTask (some 1) (some 8)) [⟨1, "a", [⟨5, "x", "todo"⟩]⟩] taskNotFound rfl
      (Or.inl rfl),
    (error_answers_leave_store_unchanged [⟨1, "a", [⟨5, "x", "todo"⟩]⟩]).2.1 (some 1) "EOF"
      ⟨⟨1, "a", [⟨5, "x", "todo"⟩]⟩, List.mem_singleton.mpr rfl, rfl⟩,
    (error_answers_leave_store_unchanged [⟨1, "a", [⟨5, "x", "todo"⟩]⟩]).2.2 (some 1) (some 5)
      "EOF" ⟨⟨1, "a", [⟨5, "x", "todo"⟩]⟩, List.mem_singleton.mpr rfl, rfl⟩
      ⟨⟨5, "x", "todo"⟩, List.mem_singleton.mpr rfl, rfl⟩⟩

/-- C17: for every store, the project scan returns -1 or an index `i` with
`0 ≤ i < len(projects)`; the task scan over an existing `projects[projectIndex]`
returns -1 or an index `i` with `0 ≤ i < len(Tasks)`; and every request returns a
store and a response, that is, no index or slice expression of a handler (each
of which yields `none` outside its bounds) is evaluated out of range. -/
theorem handlers_stay_in_bounds (projects : List Project) :
    (∀ id, findProjectIndexByID projects id = -1 ∨
      (0 ≤ findProjectIndexByID projects id ∧
        findProjectIndexByID projects id < (projects.length : Int))) ∧
    (∀ projectIndex taskID project, goIndex projects projectIndex = some project →
      ∃ taskIndex, findTaskIndexByID projects projectIndex taskID = some taskIndex ∧
        (taskIndex = -1 ∨ (0 ≤ taskIndex ∧ taskIndex < (project.Tasks.length : Int)))) ∧
    (∀ req, ∃ projects1 resp, handle projects req = some (projects1, resp)) := by
  refine ⟨fun id => findProjectIndexByID_bounds projects id, ?_,
    fun req => handle_returns projects req⟩
  intro projectIndex taskID project hget
  refine ⟨findTaskIndexFrom 0 project.Tasks taskID, ?_,
    findTaskIndexFrom_bounds project.Tasks taskID⟩
  simp only [findTaskIndexByID, hget]

/-- Without `deleteProject`, the identifiers of the store read 1, 2, 3, ... in
sequence order. -/
theorem run_without_deleteProject_ids (reqs : List Request) (projects : List Project)
    (hreqs : ∀ req ∈ reqs, req.isDeleteProject = false) (h : run [] reqs = some projects) :
    projects.map Project.ID = (List.range projects.length).map (fun (j : Nat) => (j : Int) + 1) := by
  refine run_induction
    (fun s => s.map Project.ID = (List.range s.length).map (fun (j : Nat) => (j : Int) + 1))
    (fun req => req.isDeleteProject = false) ?_ reqs [] projects hreqs rfl h
  intro s req s1 r hQ hs hh
  rcases handle_effect s req s1 r hh with e | ⟨_, ⟨id, hreq⟩ | ⟨bound, e⟩ | e⟩
  · rw [e]; exact hs
  · rw [hreq] at hQ
    exact absurd hQ (by simp [Request.isDeleteProject])
  · subst e
    simp only [List.map_append, List.map_cons, List.map_nil, List.length_append,
      List.length_singleton, List.range_succ, hs, generateID]
  · have hlen : s1.length = s.length := by
      have := congrArg List.length e
      simpa using this
    rw [e, hlen]
    exact hs

/-- C18: in every store reached from the empty store by requests none of which
is a `deleteProject`, the project at 0-based position `i` has identifier `i + 1`
and `getProject (i + 1)` answers 200 with exactly that project; the project
identifiers are pairwise distinct; and a project created next is returned by
`getProject` on its returned identifier. -/
theorem project_ids_are_positions_without_deleteProject (reqs : List Request)
    (projects : List Project) (hreqs : ∀ req ∈ reqs, req.isDeleteProject = false)
    (h : run [] reqs = some projects) :
    (∀ (i : Nat) (hi : i < projects.length),
      (projects.get ⟨i, hi⟩).ID = (i : Int) + 1 ∧
      getProject projects (some ((i : Int) + 1)) =
        some (projects, ⟨StatusOK, Payload.project (projects.get ⟨i, hi⟩)⟩)) ∧
    (projects.map Project.ID).Nodup ∧
    (∀ bound : Project,
      createProject projects (Except.ok bound) =
        some (projects ++ [⟨generateID projects, bound.Title, bound.Tasks⟩],
          ⟨StatusCreated, Payload.project ⟨generateID projects, bound.Title, bound.Tasks⟩⟩) ∧
      getProject (projects ++ [⟨generateID projects, bound.Title, bound.Tasks⟩])
          (some (generateID projects)) =
        some (projects ++ [⟨generateID projects, bound.Title, bound.Tasks⟩],
          ⟨StatusOK, Payload.project ⟨generateID projects, bound.Title, bound.Tasks⟩⟩)) := by
  have hids := run_without_deleteProject_ids reqs projects hreqs h
  have hpos : ∀ (i : Nat) (hi : i < projects.length),
      (projects.get ⟨i, hi⟩).ID = (i : Int) + 1 := by
    intro i hi
    have h1 : (projects.map Project.ID)[i]? = some (projects.get ⟨i, hi⟩).ID := by
      simp [List.getElem?_map, List.getElem?_eq_getElem hi]
    rw [hids] at h1
    simp [List.getElem?_map, List.getElem?_range hi] at h1
    exact h1.symm
  refine ⟨?_, ?_, ?_⟩
  · intro i hi
    refine ⟨hpos i hi, ?_⟩
    have hids0 : projects.map Project.ID =
        (List.range projects.length).map (fun j => ((0 + j : Nat) : Int) + 1) := by
      rw [hids]
      apply List.map_congr_left
      intro j _
      simp
    have hfind := findProjectByID_counting projects 0 hids0 i hi
    have e : (((0 + i : Nat) : Int) + 1) = (i : Int) + 1 := by simp
    rw [e] at hfind
    have hne : (projects.get ⟨i, hi⟩).ID ≠ 0 := by
      rw [hpos i hi]; omega
    simp only [getProject, getIDParam, hfind, if_neg hne]
  · rw [hids]
    refine List.Nodup.map ?_ (List.nodup_range _)
    intro a b hab
    simp only at hab
    omega
  · intro bound
    refine ⟨rfl, ?_⟩
    have hfresh : ∀ q ∈ projects, q.ID ≠ generateID projects := by
      intro q hq
      obtain ⟨i, hi, hget⟩ := List.mem_iff_getElem.mp hq
      have := hpos i hi
      simp only [List.get_eq_getElem] at this
      rw [← hget, this]
      unfold generateID
      omega
    have hne : generateID projects ≠ 0 := by
      unfold generateID
      omega
    have hfind := findProjectByID_split projects
      ⟨generateID projects, bound.Title, bound.Tasks⟩ [] (generateID projects) rfl hfresh
    simp only [getProject, getIDParam, hfind, if_neg hne]

/-- C18 at a concrete input: two projects created, the first one replaced, a
task added, replaced and deleted. -/
theorem project_ids_are_positions_without_deleteProject_witness :
    (∀ req ∈ [Request.createProject (Except.ok ⟨0, "a", []⟩),
        Request.createProject (Except.ok ⟨7, "b", []⟩),
        Request.updateProject (some 1) (Except.ok ⟨9, "A", []⟩),
        Request.createTask (some 2) (Except.ok ⟨0, "t", "todo"⟩),
        Request.updateTask (some 2) (some 3) (Except.ok ⟨0, "T", "done"⟩),
        Request.deleteTask (some 2) (some 3)], req.isDeleteProject = false) ∧
    run [] [Request.createProject (Except.ok ⟨0, "a", []⟩),
        Request.createProject (Except.ok ⟨7, "b", []⟩),
        Request.updateProject (some 1) (Except.ok ⟨9, "A", []⟩),
        Request.createTask (some 2) (Except.ok ⟨0, "t", "todo"⟩),
        Request.updateTask (some 2) (some 3) (Except.ok ⟨0, "T", "done"⟩),
        Request.deleteTask (some 2) (some 3)] = some [⟨1, "A", []⟩, ⟨2, "b", []⟩] ∧
    (([⟨1, "A", []⟩, ⟨2, "b", []⟩] : List Project).map Project.ID).Nodup ∧
    getProject [⟨1, "A", []⟩, ⟨2, "b", []⟩] (some (((1 : Nat) : Int) + 1)) =
      some ([⟨1, "A", []⟩, ⟨2, "b", []⟩], ⟨StatusOK, Payload.project ⟨2, "b", []⟩⟩) :=
  have hreqs : ∀ req ∈ [Request.createProject (Except.ok ⟨0, "a", []⟩),
        Request.createProject (Except.ok ⟨7, "b", []⟩),
        Request.updateProject (some 1) (Except.ok ⟨9, "A", []⟩),
        Request.createTask (some 2) (Except.ok ⟨0, "t", "todo"⟩),
        Request.updateTask (some 2) (some 3) (Except.ok ⟨0, "T", "done"⟩),
        Request.deleteTask (some 2) (some 3)], req.isDeleteProject = false := by
    simp [Request.isDeleteProject]
  ⟨hreqs, rfl,
    (project_ids_are_positions_without_deleteProject _ [⟨1, "A", []⟩, ⟨2, "b", []⟩]
      hreqs rfl).2.1,
    ((project_ids_are_positions_without_deleteProject _ [⟨1, "A", []⟩, ⟨2, "b", []⟩]
      hreqs rfl).1 1 (by decide)).2⟩

end GoCrud
